import Mathlib

/-!
Verification of the agentstats event-ingestion pipeline.

This file gives a shallow embedding, in Lean 4, of the core of the
agentstats telemetry collector: the event contract
(`src/contracts/event-contract.ts`), the pricing registry
(`src/pricing/index.ts`), the OTLP metric adapter with its
cumulative-to-delta cursor (`src/sse/emitter.ts`), and the write path
(`src/db/queries.ts`, `src/api/events.ts`).  JavaScript numbers are
modelled as rationals, JS strings as Lean strings (sequences of unicode
scalar values), SQLite rows as Lean structures, and the database as an
explicit state record threaded through the operations.  The server clock
`datetime('now')` becomes an explicit `now : Nat` parameter.
-/

namespace AgentStats

/-! ## Strings and UTF-8 byte accounting

JS `Buffer.byteLength(s, 'utf8')` is the sum of the UTF-8 widths of the
code points of `s`; `Char.utf8Size` is exactly that width for one code
point. -/

/-- `Buffer.byteLength(s, 'utf8')`: total UTF-8 byte length of a string. -/
def byteLength (s : String) : Nat :=
  (s.data.map Char.utf8Size).sum

/-- Loop of `utf8SliceByBytes` (src/db/queries.ts:194): walk the code
points, keeping each whole code point while the running byte count stays
within `maxBytes`, and stop at the first code point that would overflow.
Iterating `for (const char of input)` in JS visits code points, so a
multi-byte code point is kept or dropped atomically, never split. -/
def utf8SliceGo (maxBytes : Nat) : Nat → List Char → List Char
  | _, [] => []
  | currentBytes, c :: rest =>
    if currentBytes + c.utf8Size > maxBytes then []
    else c :: utf8SliceGo maxBytes (currentBytes + c.utf8Size) rest

/-- `utf8SliceByBytes(input, maxBytes)` from src/db/queries.ts:194-206. -/
def utf8SliceByBytes (input : String) (maxBytes : Nat) : String :=
  if maxBytes = 0 then ""
  else ⟨utf8SliceGo maxBytes 0 input.data⟩

/-! ## JSON values and `JSON.stringify`

Untyped JS values (the `unknown` metadata payloads and the raw ingest
bodies) are modelled by one inductive.  `undefined` is represented by
`Option` at the use sites (an absent object field), `null` by `vnull`.
Numbers are rationals; every number reachable from a JS double has a
denominator of the form 2^a*5^b, so exact finite decimal printing below
is the faithful counterpart of JS number formatting. -/

inductive JsValue where
  | vstr (s : String)
  | vnum (n : ℚ)
  | vbool (b : Bool)
  | vnull
  | vobj (fields : List (String × JsValue))
  | varr (items : List JsValue)
deriving Repr

/-- Opening brace character, written via its code to keep braces out of
string literals. -/
def lbrace : Char := Char.ofNat 123

/-- Closing brace character. -/
def rbrace : Char := Char.ofNat 125

/-- Hex digit for `\u00XX` escapes (lowercase, as JSON.stringify emits). -/
def hexDigit (n : Nat) : Char :=
  if n < 10 then Char.ofNat (48 + n) else Char.ofNat (87 + n)

/-- JSON string escaping as performed by `JSON.stringify`: quote,
backslash, and control characters are escaped; everything else is kept. -/
def escapeChar (c : Char) : List Char :=
  if c = '"' then ['\\', '"']
  else if c = '\\' then ['\\', '\\']
  else if c = Char.ofNat 8 then ['\\', 'b']
  else if c = Char.ofNat 9 then ['\\', 't']
  else if c = Char.ofNat 10 then ['\\', 'n']
  else if c = Char.ofNat 12 then ['\\', 'f']
  else if c = Char.ofNat 13 then ['\\', 'r']
  else if c.toNat < 32 then
    ['\\', 'u', '0', '0', hexDigit (c.toNat / 16), hexDigit (c.toNat % 16)]
  else [c]

/-- Serialize one string literal, quotes included. -/
def quoteString (s : String) : String :=
  ⟨'"' :: (s.data.flatMap escapeChar) ++ ['"']⟩

/-- Exact finite-decimal rendering of a rational whose denominator is
2^a*5^b (the only rationals reachable from JS doubles); renders the
integer part, a point, and the fractional digits, like JS number
formatting does for such values. -/
def ratDecimalString (q : ℚ) : String :=
  if q.den = 1 then toString q.num
  else
    let a := (q.den).factorization 2
    let b := (q.den).factorization 5
    let k := max a b
    let scaled : ℤ := q.num * ((10 : ℤ) ^ k) / (q.den : ℤ)
    let sign := if q.num < 0 then "-" else ""
    let digits := toString scaled.natAbs
    let padded := if digits.length < k + 1 then
      String.mk (List.replicate (k + 1 - digits.length) '0') ++ digits
    else digits
    let intPart := padded.dropRight k
    let fracPart := padded.takeRight k
    sign ++ intPart ++ "." ++ fracPart

mutual

/-- `JSON.stringify` on the modelled value universe.  Cycles cannot occur
in an inductive value, so the `WeakSet` guard and the `try/catch` of
`safeJsonStringify` (src/db/queries.ts:208-221) are unreachable here. -/
def jsonStringify : JsValue → String
  | .vstr s => quoteString s
  | .vnum n => ratDecimalString n
  | .vbool b => if b then "true" else "false"
  | .vnull => "null"
  | .varr items => ⟨[ '[' ]⟩ ++ jsonStringifyArr items ++ "]"
  | .vobj fields => ⟨[lbrace]⟩ ++ jsonStringifyObj fields ++ ⟨[rbrace]⟩

/-- Comma-joined serialization of array elements. -/
def jsonStringifyArr : List JsValue → String
  | [] => ""
  | [v] => jsonStringify v
  | v :: rest => jsonStringify v ++ "," ++ jsonStringifyArr rest

/-- Comma-joined serialization of object entries. -/
def jsonStringifyObj : List (String × JsValue) → String
  | [] => ""
  | [(k, v)] => quoteString k ++ ":" ++ jsonStringify v
  | (k, v) :: rest => quoteString k ++ ":" ++ jsonStringify v ++ "," ++ jsonStringifyObj rest

end

/-- `safeJsonStringify(value)` (src/db/queries.ts:208-221): serialize
`value ?? {}`.  The caller passes an `Option` when the JS value may be
`undefined` or `null`; serialization failures cannot happen on inductive
values, so the `'{"_serialization_error":true}'` fallback is dead. -/
def safeJsonStringify (value : JsValue) : String :=
  jsonStringify value

/-- First-match field lookup on a JS object (property access). -/
def lookupField (fields : List (String × JsValue)) (key : String) : Option JsValue :=
  (fields.find? (fun p => p.1 = key)).map Prod.snd

/-- `METADATA_PRIORITY_KEYS` (src/db/queries.ts:182-192). -/
def METADATA_PRIORITY_KEYS : List String :=
  ["command", "file_path", "query", "pattern", "error", "message", "tool_name", "path", "type"]

/-- `buildTruncatedObjectSummary(metadata, originalBytes)`
(src/db/queries.ts:223-239): the `_truncated` marker, the original byte
length, then every priority key the object owns, in priority order. -/
def buildTruncatedObjectSummary (fields : List (String × JsValue)) (originalBytes : Nat) : String :=
  safeJsonStringify (.vobj
    ([("_truncated", .vbool true), ("_original_bytes", .vnum originalBytes)] ++
      METADATA_PRIORITY_KEYS.filterMap (fun k => (lookupField fields k).map (fun v => (k, v)))))

/-- `buildTruncatedGenericSummary(originalBytes)` (src/db/queries.ts:241-246). -/
def buildTruncatedGenericSummary (originalBytes : Nat) : String :=
  safeJsonStringify (.vobj [("_truncated", .vbool true), ("_original_bytes", .vnum originalBytes)])

/-- `truncateMetadata(metadata)` (src/db/queries.ts:248-276), with the
configured `config.maxPayloadKB` passed explicitly.  `Math.max(0, kb*1024)`
is the identity on `Nat`. -/
def truncateMetadata (maxPayloadKB : Nat) (metadata : JsValue) : String × Bool :=
  let maxBytes := maxPayloadKB * 1024
  match metadata with
  | .vstr s =>
    if byteLength s ≤ maxBytes then (s, false)
    else (utf8SliceByBytes s maxBytes, true)
  | md =>
    let serialized := safeJsonStringify (if md matches .vnull then .vobj [] else md)
    let bl := byteLength serialized
    if bl ≤ maxBytes then (serialized, false)
    else
      let summary := match md with
        | .vobj fields => buildTruncatedObjectSummary fields bl
        | _ => buildTruncatedGenericSummary bl
      if byteLength summary ≤ maxBytes then (summary, true)
      else (utf8SliceByBytes summary maxBytes, true)

/-! ## Pricing registry (src/pricing/index.ts)

Provider data files carry USD-per-million-token rates; `loadProvider`
converts them once to USD-per-token.  The JS `Map` is modelled as an
association list with overwrite-on-set semantics. -/

/-- One entry of a provider data file (`PricingDataModel`). -/
structure PricingDataModel where
  aliases : List String
  inputCostPerMTok : ℚ
  outputCostPerMTok : ℚ
  cacheReadCostPerMTok : ℚ
  cacheWriteCostPerMTok : ℚ
  deprecated : Bool
deriving Repr

/-- One provider data file (`PricingDataFile`); `models` keeps the JSON
object's entry order. -/
structure PricingDataFile where
  provider : String
  models : List (String × PricingDataModel)
deriving Repr

/-- Per-token pricing as stored in the registry (`ModelPricing`). -/
structure ModelPricing where
  inputCostPerToken : ℚ
  outputCostPerToken : ℚ
  cacheReadCostPerToken : ℚ
  cacheWriteCostPerToken : ℚ
  provider : String
  deprecated : Bool
deriving Repr, DecidableEq

/-- `TokenCounts` (src/pricing/index.ts:31-36); the cache fields are
optional in TS and default to 0 inside `calculate`. -/
structure TokenCounts where
  input : ℚ
  output : ℚ
  cacheRead : Option ℚ
  cacheWrite : Option ℚ
deriving Repr

/-- `Map.set`: overwrite the entry when the key exists, append otherwise. -/
def mapSet {α : Type} (m : List (String × α)) (k : String) (v : α) : List (String × α) :=
  if m.any (fun p => p.1 = k) then
    m.map (fun p => if p.1 = k then (k, v) else p)
  else m ++ [(k, v)]

/-- `Map.get`: first entry with the key. -/
def mapGet {α : Type} (m : List (String × α)) (k : String) : Option α :=
  (m.find? (fun p => p.1 = k)).map Prod.snd

/-- The registry's two maps: canonical name → pricing, alias → canonical
name (`PricingRegistry.models` / `.aliases`). -/
structure Registry where
  models : List (String × ModelPricing)
  aliases : List (String × String)
deriving Repr

/-- `M_TOK = 1_000_000` (src/pricing/index.ts:40). -/
def M_TOK : ℚ := 1000000

/-- The per-model conversion done in `loadProvider`
(src/pricing/index.ts:66-85): each per-million rate divided by `M_TOK`. -/
def toModelPricing (provider : String) (model : PricingDataModel) : ModelPricing :=
  { inputCostPerToken := model.inputCostPerMTok / M_TOK
    outputCostPerToken := model.outputCostPerMTok / M_TOK
    cacheReadCostPerToken := model.cacheReadCostPerMTok / M_TOK
    cacheWriteCostPerToken := model.cacheWriteCostPerMTok / M_TOK
    provider := provider
    deprecated := model.deprecated }

/-- One iteration of the `loadProvider` loop: register the canonical
name, then each alias. -/
def loadModelEntry (provider : String) (reg : Registry) (entry : String × PricingDataModel) :
    Registry :=
  let pricing := toModelPricing provider entry.2
  let reg1 : Registry := { reg with models := mapSet reg.models entry.1 pricing }
  { reg1 with
    aliases := entry.2.aliases.foldl (fun a al => mapSet a al entry.1) reg1.aliases }

/-- `loadProvider(data)` (src/pricing/index.ts:66-85). -/
def loadProvider (reg : Registry) (data : PricingDataFile) : Registry :=
  data.models.foldl (loadModelEntry data.provider) reg

/-- `loadAll` (src/pricing/index.ts:50-64) as a fold over the successfully
parsed data files (missing or malformed files are skipped in the source,
so the argument list holds exactly the files that loaded). -/
def loadAll (files : List PricingDataFile) : Registry :=
  files.foldl loadProvider { models := [], aliases := [] }

/-- One step of `normalize`'s chained `.replace(/^p\//, '')`: drop the
provider segment when it starts the string (spelled out on the code-point
list so the kernel can evaluate it). -/
def stripProviderSegment (seg : String) (model : String) : String :=
  if seg.data.isPrefixOf model.data then ⟨model.data.drop seg.data.length⟩ else model

/-- `normalize(model)` (src/pricing/index.ts:90-95): strip `anthropic/`,
then `openai/`, then `google/`. -/
def normalizeModelName (model : String) : String :=
  stripProviderSegment "google/" (stripProviderSegment "openai/" (stripProviderSegment "anthropic/" model))

/-- `lookup(model)` (src/pricing/index.ts:100-112). -/
def Registry.lookup (reg : Registry) (model : String) : Option ModelPricing :=
  let normalized := normalizeModelName model
  match mapGet reg.models normalized with
  | some direct => some direct
  | none =>
    match mapGet reg.aliases normalized with
    | some canonical => mapGet reg.models canonical
    | none => none

/-- `calculate(model, tokens)` (src/pricing/index.ts:118-126): `null` when
the model is unknown, otherwise the linear token/rate combination. -/
def Registry.calculate (reg : Registry) (model : String) (tokens : TokenCounts) : Option ℚ :=
  match reg.lookup model with
  | none => none
  | some pricing =>
    some (tokens.input * pricing.inputCostPerToken
      + tokens.output * pricing.outputCostPerToken
      + (tokens.cacheRead.getD 0) * pricing.cacheReadCostPerToken
      + (tokens.cacheWrite.getD 0) * pricing.cacheWriteCostPerToken)

/-! ## Event contract (src/contracts/event-contract.ts)

The contract is a pure function from an untyped JS value to either a
normalized event or an ordered list of `{field, message}` errors.  JS
`Date` parsing is an external runtime facility, so it enters the
embedding as an explicit `parseDate` parameter returning the canonical
ISO string for a valid timestamp and `none` otherwise. -/

/-- `EVENT_TYPES` (the closed enumeration of the contract). -/
def EVENT_TYPES : List String :=
  ["tool_use", "session_start", "session_end", "error", "llm_request",
   "llm_response", "file_change", "git_commit", "plan_step", "user_prompt"]

/-- `EVENT_STATUSES`. -/
def EVENT_STATUSES : List String := ["success", "error", "timeout"]

/-- `EVENT_SOURCES`. -/
def EVENT_SOURCES : List String := ["api", "hook", "otel", "import"]

/-- `ContractValidationError`. -/
structure FieldError where
  field : String
  message : String
deriving Repr, DecidableEq

/-- `NormalizedIngestEvent`.  `event_type` and `status` stay `String`
because the TS code casts the raw value (`value as EventType`) even when
it failed validation; an invalid value never reaches an `ok` result, but
the cast is part of the source. -/
structure NormalizedIngestEvent where
  event_id : Option String
  session_id : String
  agent_type : String
  event_type : String
  tool_name : Option String
  status : String
  tokens_in : ℚ
  tokens_out : ℚ
  branch : Option String
  project : Option String
  duration_ms : Option ℚ
  metadata : JsValue
  client_timestamp : Option String
  model : Option String
  cost_usd : Option ℚ
  cache_read_tokens : ℚ
  cache_write_tokens : ℚ
  source : Option String
deriving Repr

/-- `NormalizeEventResult`. -/
inductive NormalizeEventResult where
  | ok (event : NormalizedIngestEvent)
  | err (errors : List FieldError)
deriving Repr

/-- JS `String.prototype.trim`: drop leading and trailing whitespace
(code-point-list implementation of the runtime built-in). -/
def jsTrim (s : String) : String :=
  ⟨((s.data.dropWhile Char.isWhitespace).reverse.dropWhile Char.isWhitespace).reverse⟩

/-- `getRequiredString(input, field, errors)`: non-string (including
absent and `null`) is an error; a string is trimmed and must be
non-empty.  Returns the value together with the errors it pushed. -/
def getRequiredString (fields : List (String × JsValue)) (name : String) :
    String × List FieldError :=
  match lookupField fields name with
  | some (.vstr raw) =>
    let value := jsTrim raw
    if value = "" then (value, [⟨name, "must be a non-empty string"⟩])
    else (value, [])
  | _ => ("", [⟨name, "must be a string"⟩])

/-- `getOptionalString`: absent or `null` passes as `undefined`; a
non-string is an error; an all-whitespace string collapses to
`undefined`. -/
def getOptionalString (fields : List (String × JsValue)) (name : String) :
    Option String × List FieldError :=
  match lookupField fields name with
  | none => (none, [])
  | some .vnull => (none, [])
  | some (.vstr raw) =>
    let value := jsTrim raw
    ((if value = "" then none else some value), [])
  | some _ => (none, [⟨name, "must be a string when provided"⟩])

/-- `getOptionalNonNegativeInt`: present values must be non-negative
integers (`Number.isInteger` is `den = 1` on the rational model). -/
def getOptionalNonNegativeInt (fields : List (String × JsValue)) (name : String) :
    Option ℚ × List FieldError :=
  match lookupField fields name with
  | none => (none, [])
  | some .vnull => (none, [])
  | some (.vnum raw) =>
    if raw.den = 1 ∧ 0 ≤ raw then (some raw, [])
    else (none, [⟨name, "must be a non-negative integer when provided"⟩])
  | some _ => (none, [⟨name, "must be a non-negative integer when provided"⟩])

/-- `getOptionalNonNegativeNumber`: present values must be non-negative
(fractions allowed). -/
def getOptionalNonNegativeNumber (fields : List (String × JsValue)) (name : String) :
    Option ℚ × List FieldError :=
  match lookupField fields name with
  | none => (none, [])
  | some .vnull => (none, [])
  | some (.vnum raw) =>
    if 0 ≤ raw then (some raw, [])
    else (none, [⟨name, "must be a non-negative number when provided"⟩])
  | some _ => (none, [⟨name, "must be a non-negative number when provided"⟩])

/-- `normalizeEventType(value, errors)`: membership in `EVENT_TYPES`
is checked, the raw value is returned either way (the TS cast). -/
def normalizeEventType (value : String) : String × List FieldError :=
  if EVENT_TYPES.contains value then (value, [])
  else (value,
    [⟨"event_type",
      "must be one of: " ++ String.intercalate ", " EVENT_TYPES⟩])

/-- `normalizeStatus(input, eventType, errors)`: absent/`null` defaults
from the event type; non-strings error and default; invalid enum values
error but are returned (the TS cast). -/
def normalizeStatus (fields : List (String × JsValue)) (eventType : String) :
    String × List FieldError :=
  let dflt := if eventType = "error" then "error" else "success"
  match lookupField fields "status" with
  | none => (dflt, [])
  | some .vnull => (dflt, [])
  | some (.vstr raw) =>
    if EVENT_STATUSES.contains raw then (raw, [])
    else (raw, [⟨"status", "must be one of: " ++ String.intercalate ", " EVENT_STATUSES⟩])
  | some _ => (dflt, [⟨"status", "must be a string when provided"⟩])

/-- `normalizeClientTimestamp(input, errors)`: `parseDate` stands for
`new Date(raw)` plus `toISOString`, returning `none` on `NaN`. -/
def normalizeClientTimestamp (parseDate : String → Option String)
    (fields : List (String × JsValue)) : Option String × List FieldError :=
  match lookupField fields "client_timestamp" with
  | none => (none, [])
  | some .vnull => (none, [])
  | some (.vstr raw) =>
    match parseDate raw with
    | some iso => (some iso, [])
    | none => (none, [⟨"client_timestamp", "must be a valid timestamp"⟩])
  | some _ => (none, [⟨"client_timestamp", "must be an ISO timestamp string when provided"⟩])

/-- Body of `normalizeIngestEvent` after the `isRecord` guard: every
field is validated unconditionally and the error lists are concatenated
in push order; the event is assembled from the extracted values. -/
def normalizeRecord (parseDate : String → Option String)
    (fields : List (String × JsValue)) : NormalizedIngestEvent × List FieldError :=
  let (sessionId, e1) := getRequiredString fields "session_id"
  let (agentType, e2) := getRequiredString fields "agent_type"
  let (eventTypeRaw, e3) := getRequiredString fields "event_type"
  let (eventType, e4) := normalizeEventType eventTypeRaw
  let (status, e5) := normalizeStatus fields eventType
  let (eventId, e6) := getOptionalString fields "event_id"
  let (toolName, e7) := getOptionalString fields "tool_name"
  let (branch, e8) := getOptionalString fields "branch"
  let (project, e9) := getOptionalString fields "project"
  let (model, e10) := getOptionalString fields "model"
  let (durationMs, e11) := getOptionalNonNegativeInt fields "duration_ms"
  let (tokensIn, e12) := getOptionalNonNegativeInt fields "tokens_in"
  let (tokensOut, e13) := getOptionalNonNegativeInt fields "tokens_out"
  let (cacheReadTokens, e14) := getOptionalNonNegativeInt fields "cache_read_tokens"
  let (cacheWriteTokens, e15) := getOptionalNonNegativeInt fields "cache_write_tokens"
  let (costUsd, e16) := getOptionalNonNegativeNumber fields "cost_usd"
  let (clientTimestamp, e17) := normalizeClientTimestamp parseDate fields
  let (srcVal, e18) := getOptionalString fields "source"
  let metadata := match lookupField fields "metadata" with
    | none => JsValue.vobj []
    | some .vnull => JsValue.vobj []
    | some v => v
  ({ event_id := eventId
     session_id := sessionId
     agent_type := agentType
     event_type := eventType
     tool_name := toolName
     status := status
     tokens_in := tokensIn.getD 0
     tokens_out := tokensOut.getD 0
     branch := branch
     project := project
     duration_ms := durationMs
     metadata := metadata
     client_timestamp := clientTimestamp
     model := model
     cost_usd := costUsd
     cache_read_tokens := cacheReadTokens.getD 0
     cache_write_tokens := cacheWriteTokens.getD 0
     source := srcVal },
   e1 ++ e2 ++ e3 ++ e4 ++ e5 ++ e6 ++ e7 ++ e8 ++ e9 ++ e10 ++ e11 ++ e12
     ++ e13 ++ e14 ++ e15 ++ e16 ++ e17 ++ e18)

/-- `normalizeIngestEvent(input)` (event-contract, lines 184-241):
non-objects (including `null` and arrays, per `isRecord`) are rejected
with a single `body` error; otherwise all fields are validated and the
record is accepted iff no error was pushed. -/
def normalizeIngestEvent (parseDate : String → Option String) (input : JsValue) :
    NormalizeEventResult :=
  match input with
  | .vobj fields =>
    let (event, errors) := normalizeRecord parseDate fields
    if errors = [] then .ok event else .err errors
  | _ => .err [⟨"body", "must be a JSON object"⟩]

/-! ## OTLP adapter (src/sse/emitter.ts)

Optional arrays of the OTLP JSON payload are modelled as lists, with
absence as the empty list where the source only ever iterates them or
passes them to `getAttr` (observationally identical); optionality is
kept where the source distinguishes `undefined` (`dataPoints`,
`aggregationTemporality`, `name`, `severityText`).  `String(n)` on an
attribute number uses the exact decimal rendering, which agrees with JS
formatting on the rationals reachable from doubles.  The module-global
`cumulativeState` map becomes an explicit state parameter. -/

/-- `OtelAnyValue` restricted to the scalar arms read by `getAttr`
(`kvlistValue`/`arrayValue`/`boolValue` are never consulted there). -/
structure OtelAnyValue where
  stringValue : Option String
  intValue : Option Int
  doubleValue : Option ℚ
deriving Repr

/-- `OtelKeyValue`. -/
structure OtelKeyValue where
  key : String
  value : OtelAnyValue
deriving Repr

/-- `getAttr(attrs, key)` (src/sse/emitter.ts:212-220): the first
matching attribute's string value, or its numeric value rendered as a
string. -/
def getAttr (attrs : List OtelKeyValue) (key : String) : Option String :=
  match attrs.find? (fun a => a.key = key) with
  | none => none
  | some kv =>
    match kv.value.stringValue with
    | some s => some s
    | none =>
      match kv.value.intValue with
      | some i => some (toString i)
      | none =>
        match kv.value.doubleValue with
        | some d => some (ratDecimalString d)
        | none => none

/-- JS `String.prototype.includes`. -/
def jsIncludes (s sub : String) : Bool :=
  s.data.tails.any (fun t => sub.data.isPrefixOf t)

/-- `resolveServiceName(resourceAttrs)` (src/sse/emitter.ts:314-319). -/
def resolveServiceName (resourceAttrs : List OtelKeyValue) : String :=
  let svc := (getAttr resourceAttrs "service.name").getD ""
  if jsIncludes svc "codex" || svc = "codex_cli_rs" then "codex"
  else if jsIncludes svc "claude" || svc = "claude_code" then "claude_code"
  else if svc = "" then "unknown" else svc

/-- `CLAUDE_EVENT_MAP` (src/sse/emitter.ts:286-298). -/
def CLAUDE_EVENT_MAP : List (String × String) :=
  [("claude_code.tool_result", "tool_use"), ("claude_code.tool_use", "tool_use"),
   ("claude_code.api_request", "llm_request"), ("claude_code.api_response", "llm_response"),
   ("claude_code.session_start", "session_start"), ("claude_code.session_end", "session_end"),
   ("claude_code.file_change", "file_change"), ("claude_code.git_commit", "git_commit"),
   ("claude_code.plan_step", "plan_step"), ("claude_code.error", "error"),
   ("claude_code.response", "response")]

/-- `CODEX_EVENT_MAP` (src/sse/emitter.ts:300-310). -/
def CODEX_EVENT_MAP : List (String × String) :=
  [("codex.tool_result", "tool_use"), ("codex.tool_use", "tool_use"),
   ("codex.api_request", "llm_request"), ("codex.api_response", "llm_response"),
   ("codex.session_start", "session_start"), ("codex.session_end", "session_end"),
   ("codex.file_change", "file_change"), ("codex.error", "error"),
   ("codex.response", "response")]

/-- `EVENT_TYPE_SUFFIXES` (src/sse/emitter.ts:335-347). -/
def EVENT_TYPE_SUFFIXES : List (String × String) :=
  [("tool_result", "tool_use"), ("tool_use", "tool_use"),
   ("api_request", "llm_request"), ("api_response", "llm_response"),
   ("session_start", "session_start"), ("session_end", "session_end"),
   ("file_change", "file_change"), ("git_commit", "git_commit"),
   ("plan_step", "plan_step"), ("error", "error"), ("response", "response")]

/-- The fields of `OtelLogRecord` consulted by `resolveEventType`. -/
structure OtelLogRecord where
  attributes : List OtelKeyValue
  severityText : Option String
deriving Repr

/-- `resolveEventType(logRecord, agentType)` (src/sse/emitter.ts:321-355):
agent-specific name map, then suffix map after the last `.`, then the
`ERROR`-severity fallback, then the `'response'` default.  An empty
event-name string is falsy in the TS `if (eventName)`. -/
def resolveEventType (logRecord : OtelLogRecord) (agentType : String) : String :=
  let eventName := (getAttr logRecord.attributes "event.name").orElse
    (fun _ => getAttr logRecord.attributes "name")
  let fromName : Option String :=
    match eventName with
    | some n =>
      if n = "" then none
      else
        let map := if agentType = "codex" then CODEX_EVENT_MAP else CLAUDE_EVENT_MAP
        match mapGet map n with
        | some t => some t
        | none => mapGet EVENT_TYPE_SUFFIXES ((n.splitOn ".").getLastD "")
    | none => none
  match fromName with
  | some t => t
  | none => if logRecord.severityText = some "ERROR" then "error" else "response"

/-- `OtelNumberDataPoint` (the string form of `asInt` in OTLP JSON is
modelled as the parsed integer). -/
structure OtelNumberDataPoint where
  asInt : Option Int
  asDouble : Option ℚ
  attributes : List OtelKeyValue
deriving Repr

/-- `OtelSum`. -/
structure OtelSum where
  dataPoints : Option (List OtelNumberDataPoint)
  isMonotonic : Option Bool
  aggregationTemporality : Option Int
deriving Repr

/-- `OtelGauge`. -/
structure OtelGauge where
  dataPoints : Option (List OtelNumberDataPoint)
deriving Repr

/-- `OtelMetric`. -/
structure OtelMetric where
  name : Option String
  sum : Option OtelSum
  gauge : Option OtelGauge
deriving Repr

/-- `OtelScopeMetrics`. -/
structure OtelScopeMetrics where
  metrics : Option (List OtelMetric)
deriving Repr

/-- `OtelResource`. -/
structure OtelResource where
  attributes : List OtelKeyValue
deriving Repr

/-- `OtelResourceMetrics`. -/
structure OtelResourceMetrics where
  resource : Option OtelResource
  scopeMetrics : Option (List OtelScopeMetrics)
deriving Repr

/-- `OtelMetricsPayload`. -/
structure OtelMetricsPayload where
  resourceMetrics : Option (List OtelResourceMetrics)
deriving Repr

/-- `ParsedMetricDelta` (src/sse/emitter.ts:491-500). -/
structure ParsedMetricDelta where
  session_id : String
  agent_type : String
  model : Option String
  tokens_in_delta : ℚ
  tokens_out_delta : ℚ
  cache_read_delta : ℚ
  cache_write_delta : ℚ
  cost_usd_delta : ℚ
deriving Repr, DecidableEq

/-- The cumulative-to-delta cursor (`cumulativeState`), keyed by the
joined `session|agent|metric|model|type` string. -/
abbrev CumulativeState : Type := List (String × ℚ)

/-- `getDataPointValue(dp)` (src/sse/emitter.ts:502-508). -/
def getDataPointValue (dp : OtelNumberDataPoint) : ℚ :=
  match dp.asDouble with
  | some d => d
  | none =>
    match dp.asInt with
    | some i => (i : ℚ)
    | none => 0

/-- `computeDelta(key, currentValue)` (src/sse/emitter.ts:510-522): the
cursor is updated to the current raw value; the first observation of a
key returns the raw value itself, later ones return the increase clamped
to zero. -/
def computeDelta (key : String) (currentValue : ℚ) (st : CumulativeState) :
    ℚ × CumulativeState :=
  let lastValue := mapGet st key
  let st2 := mapSet st key currentValue
  match lastValue with
  | none => (currentValue, st2)
  | some lv =>
    let delta := currentValue - lv
    (if delta > 0 then delta else 0, st2)

/-- `TOKEN_METRICS` (src/sse/emitter.ts:524-528). -/
def TOKEN_METRICS : List String :=
  ["claude_code.token.usage", "codex_cli_rs.token.usage", "gen_ai.client.token.usage"]

/-- `COST_METRICS` (src/sse/emitter.ts:530-534). -/
def COST_METRICS : List String :=
  ["claude_code.cost.usage", "codex_cli_rs.cost.usage", "gen_ai.client.cost.usage"]

/-- The joined cursor key built in the data-point loop
(src/sse/emitter.ts:567). -/
def metricCacheKey (sessionId agentType metricName : String)
    (model tokenType : Option String) : String :=
  sessionId ++ "|" ++ agentType ++ "|" ++ metricName ++ "|" ++ model.getD "" ++ "|" ++ tokenType.getD ""

/-- Body of the innermost data-point loop of `parseOtelMetrics`
(src/sse/emitter.ts:559-618): compute the delta (through the cursor for
cumulative metrics), discard non-positive deltas, and route the delta to
the token field selected by the `type` attribute or to the cost field. -/
def processDataPoint (resourceAttrs : List OtelKeyValue) (sessionId agentType metricName : String)
    (isCumulative : Bool) (st : CumulativeState) (dp : OtelNumberDataPoint) :
    Option ParsedMetricDelta × CumulativeState :=
  let rawValue := getDataPointValue dp
  let model := ((getAttr dp.attributes "model").orElse
    (fun _ => getAttr dp.attributes "gen_ai.request.model")).orElse
    (fun _ => getAttr resourceAttrs "model")
  let tokenType := (getAttr dp.attributes "type").orElse
    (fun _ => getAttr dp.attributes "token.type")
  let cacheKey := metricCacheKey sessionId agentType metricName model tokenType
  let (delta, st2) := if isCumulative then computeDelta cacheKey rawValue st else (rawValue, st)
  if delta ≤ 0 then (none, st2)
  else if TOKEN_METRICS.contains metricName then
    let base : ParsedMetricDelta :=
      { session_id := sessionId, agent_type := agentType, model := model
        tokens_in_delta := 0, tokens_out_delta := 0, cache_read_delta := 0
        cache_write_delta := 0, cost_usd_delta := 0 }
    let entry := match tokenType with
      | some "input" => { base with tokens_in_delta := delta }
      | some "output" => { base with tokens_out_delta := delta }
      | some "cacheRead" => { base with cache_read_delta := delta }
      | some "cache_read" => { base with cache_read_delta := delta }
      | some "cacheCreation" => { base with cache_write_delta := delta }
      | some "cache_creation" => { base with cache_write_delta := delta }
      | some "cache_write" => { base with cache_write_delta := delta }
      | _ => { base with tokens_in_delta := delta }
    (some entry, st2)
  else if COST_METRICS.contains metricName then
    (some { session_id := sessionId, agent_type := agentType, model := model
            tokens_in_delta := 0, tokens_out_delta := 0, cache_read_delta := 0
            cache_write_delta := 0, cost_usd_delta := delta }, st2)
  else (none, st2)

/-- The data-point loop, in order, threading the cursor. -/
def processDataPoints (resourceAttrs : List OtelKeyValue)
    (sessionId agentType metricName : String) (isCumulative : Bool)
    (st : CumulativeState) : List OtelNumberDataPoint →
    List ParsedMetricDelta × CumulativeState
  | [] => ([], st)
  | dp :: rest =>
    let (r, st2) := processDataPoint resourceAttrs sessionId agentType metricName
      isCumulative st dp
    let (rs, st3) := processDataPoints resourceAttrs sessionId agentType metricName
      isCumulative st2 rest
    (r.toList ++ rs, st3)

/-- One metric of the scope loop: `metric.sum?.dataPoints ??
metric.gauge?.dataPoints ?? []` and the cumulative-temporality test
`metric.sum?.aggregationTemporality === 2`. -/
def processMetric (resourceAttrs : List OtelKeyValue) (sessionId agentType : String)
    (st : CumulativeState) (metric : OtelMetric) :
    List ParsedMetricDelta × CumulativeState :=
  let metricName := metric.name.getD ""
  let dataPoints := ((metric.sum.bind (fun s => s.dataPoints)).orElse
    (fun _ => metric.gauge.bind (fun g => g.dataPoints))).getD []
  let isCumulative := (metric.sum.bind (fun s => s.aggregationTemporality)) = some 2
  processDataPoints resourceAttrs sessionId agentType metricName isCumulative st dataPoints

/-- The metric loop of one scope. -/
def processMetricList (resourceAttrs : List OtelKeyValue) (sessionId agentType : String)
    (st : CumulativeState) : List OtelMetric → List ParsedMetricDelta × CumulativeState
  | [] => ([], st)
  | m :: rest =>
    let (r, st2) := processMetric resourceAttrs sessionId agentType st m
    let (rs, st3) := processMetricList resourceAttrs sessionId agentType st2 rest
    (r ++ rs, st3)

/-- The scope loop of one resource. -/
def processScopeList (resourceAttrs : List OtelKeyValue) (sessionId agentType : String)
    (st : CumulativeState) : List OtelScopeMetrics → List ParsedMetricDelta × CumulativeState
  | [] => ([], st)
  | sm :: rest =>
    let (r, st2) := processMetricList resourceAttrs sessionId agentType st (sm.metrics.getD [])
    let (rs, st3) := processScopeList resourceAttrs sessionId agentType st2 rest
    (r ++ rs, st3)

/-- The resource loop: agent type from the service name, session id from
resource attributes with the `'unknown'` fallback. -/
def processResourceList (st : CumulativeState) :
    List OtelResourceMetrics → List ParsedMetricDelta × CumulativeState
  | [] => ([], st)
  | rm :: rest =>
    let resourceAttrs := (rm.resource.map (fun r => r.attributes)).getD []
    let agentType := resolveServiceName resourceAttrs
    let sessionId := ((getAttr resourceAttrs "gen_ai.session.id").orElse
      (fun _ => getAttr resourceAttrs "session.id")).getD "unknown"
    let (r, st2) := processScopeList resourceAttrs sessionId agentType st (rm.scopeMetrics.getD [])
    let (rs, st3) := processResourceList st2 rest
    (r ++ rs, st3)

/-- `parseOtelMetrics(payload)` (src/sse/emitter.ts:536-624), with the
module-global cursor passed and returned explicitly. -/
def parseOtelMetrics (payload : OtelMetricsPayload) (st : CumulativeState) :
    List ParsedMetricDelta × CumulativeState :=
  processResourceList st (payload.resourceMetrics.getD [])

/-! ## Write path: sessions, events, dedup (src/db/queries.ts)

The SQLite store becomes an explicit `DbState`.  `datetime('now')` is the
explicit `now : Nat` parameter.  Rows are matched by id exactly as the
`WHERE` clauses do.  The JS `x || null` coercion (empty string to null,
numeric 0 to null) is modelled by dedicated helpers.  The `events`
table's `UNIQUE` constraint on `event_id` admits any number of NULLs
(SQLite treats NULLs as distinct), so the duplicate check fires only for
a present, non-empty id. -/

/-- JS `s || null` on an optional string: `undefined` and `''` become null. -/
def orNullStr (o : Option String) : Option String :=
  match o with
  | some "" => none
  | x => x

/-- JS `n || null` on an optional number: `undefined` and `0` become null. -/
def orNullNum (o : Option ℚ) : Option ℚ :=
  match o with
  | some n => if n = 0 then none else some n
  | none => none

/-- Session status enumeration. -/
inductive SessionStatus where
  | active
  | idle
  | ended
deriving Repr, DecidableEq

/-- One row of `sessions` (the columns touched by the write path). -/
structure Session where
  id : String
  agent_id : String
  agent_type : String
  project : Option String
  branch : Option String
  status : SessionStatus
  started_at : Nat
  ended_at : Option Nat
  last_event_at : Nat
deriving Repr, DecidableEq

/-- One row of `agents`. -/
structure Agent where
  id : String
  agent_type : String
  name : Option String
  registered_at : Nat
  last_seen_at : Nat
deriving Repr, DecidableEq

/-- One row of `events` (the columns written by `insertEvent`). -/
structure EventRow where
  id : Nat
  event_id : Option String
  session_id : String
  agent_type : String
  event_type : String
  tool_name : Option String
  status : String
  tokens_in : ℚ
  tokens_out : ℚ
  branch : Option String
  project : Option String
  duration_ms : Option ℚ
  created_at : Nat
  client_timestamp : Option String
  metadata : String
  payload_truncated : Bool
  model : Option String
  cost_usd : Option ℚ
  cache_read_tokens : ℚ
  cache_write_tokens : ℚ
  source : String
deriving Repr, DecidableEq

/-- The store: agents, sessions, events, and the AUTOINCREMENT counter. -/
structure DbState where
  agents : List Agent
  sessions : List Session
  events : List EventRow
  nextEventId : Nat
deriving Repr

/-- `upsertAgent(id, agentType, name)` (src/db/queries.ts:8-15). -/
def upsertAgent (now : Nat) (id agentType : String) (name : Option String)
    (st : DbState) : DbState :=
  if st.agents.any (fun a => a.id = id) then
    { st with agents := st.agents.map (fun a =>
        if a.id = id then { a with last_seen_at := now } else a) }
  else
    { st with agents := st.agents ++
        [{ id := id, agent_type := agentType, name := orNullStr name,
           registered_at := now, last_seen_at := now }] }

/-- `upsertSession(id, agentId, agentType, project, branch)`
(src/db/queries.ts:19-36).  On conflict: `last_event_at` is set to now
unconditionally; `status` stays `ended` when it was `ended`, otherwise
becomes `active`; `project`/`branch` follow
`COALESCE(excluded.x, sessions.x)` where the excluded value already went
through `x || null`. -/
def upsertSession (now : Nat) (id agentId agentType : String)
    (project branch : Option String) (st : DbState) : DbState :=
  let p := orNullStr project
  let b := orNullStr branch
  if st.sessions.any (fun s => s.id = id) then
    { st with sessions := st.sessions.map (fun s =>
        if s.id = id then
          { s with
            last_event_at := now
            status := if s.status = .ended then s.status else .active
            project := match p with | some v => some v | none => s.project
            branch := match b with | some v => some v | none => s.branch }
        else s) }
  else
    { st with sessions := st.sessions ++
        [{ id := id, agent_id := agentId, agent_type := agentType,
           project := p, branch := b, status := .active,
           started_at := now, ended_at := none, last_event_at := now }] }

/-- `idleSession(sessionId)` (src/db/queries.ts:139-145): demote to idle
unless already ended. -/
def idleSession (sessionId : String) (st : DbState) : DbState :=
  { st with sessions := st.sessions.map (fun s =>
      if s.id = sessionId ∧ s.status ≠ .ended then { s with status := .idle } else s) }

/-- `endSession(sessionId)` (src/db/queries.ts:147-153): set status and
`ended_at` with no guard on the current status. -/
def endSession (now : Nat) (sessionId : String) (st : DbState) : DbState :=
  { st with sessions := st.sessions.map (fun s =>
      if s.id = sessionId then { s with status := .ended, ended_at := some now } else s) }

/-- The import-path update inside `insertEvent` (src/db/queries.ts:316-322):
`SET status='ended', ended_at=COALESCE(ended_at, now) WHERE id=? AND
status != 'ended'`. -/
def importEndSession (now : Nat) (sessionId : String) (st : DbState) : DbState :=
  { st with sessions := st.sessions.map (fun s =>
      if s.id = sessionId ∧ s.status ≠ .ended then
        { s with status := .ended, ended_at := some (s.ended_at.getD now) }
      else s) }

/-- The parameter record of `insertEvent` (src/db/queries.ts:278-297). -/
structure InsertEventInput where
  event_id : Option String
  session_id : String
  agent_type : String
  event_type : String
  tool_name : Option String
  status : String
  tokens_in : ℚ
  tokens_out : ℚ
  branch : Option String
  project : Option String
  duration_ms : Option ℚ
  metadata : JsValue
  client_timestamp : Option String
  model : Option String
  cost_usd : Option ℚ
  cache_read_tokens : Option ℚ
  cache_write_tokens : Option ℚ
  source : Option String
deriving Repr

/-- The `if (event.model && ...)` truthiness test: a present, non-empty
model string. -/
def modelTruthy (o : Option String) : Bool :=
  match o with
  | some m => m ≠ ""
  | none => false

/-- `insertEvent(event)` (src/db/queries.ts:278-376).  Steps in source
order: agent/session upsert; the `session_end` lifecycle transition
(claude_code lingers in idle, others end immediately); the import-path
terminal marking; auto-pricing when a model and positive tokens are
present and no cost was supplied; metadata truncation; then the insert
itself, which yields `none` (duplicate) when the event carries an id that
already exists, and the persisted row otherwise. -/
def insertEvent (reg : Registry) (maxPayloadKB : Nat) (now : Nat)
    (ev : InsertEventInput) (st : DbState) : Option EventRow × DbState :=
  let agentId := ev.agent_type ++ "-default"
  let st1 := upsertAgent now agentId ev.agent_type none st
  let st2 := upsertSession now ev.session_id agentId ev.agent_type ev.project ev.branch st1
  let st3 :=
    if ev.event_type = "session_end" then
      if ev.agent_type = "claude_code" then idleSession ev.session_id st2
      else endSession now ev.session_id st2
    else st2
  let st4 := if ev.source = some "import" then importEndSession now ev.session_id st3 else st3
  let cost :=
    if modelTruthy ev.model ∧ (ev.tokens_in > 0 ∨ ev.tokens_out > 0) ∧ ev.cost_usd = none then
      reg.calculate (ev.model.getD "")
        { input := ev.tokens_in, output := ev.tokens_out,
          cacheRead := ev.cache_read_tokens, cacheWrite := ev.cache_write_tokens }
    else ev.cost_usd
  let meta := truncateMetadata maxPayloadKB ev.metadata
  let eid := orNullStr ev.event_id
  match eid with
  | some e =>
    if st4.events.any (fun r => r.event_id = some e) then (none, st4)
    else
      let row : EventRow :=
        { id := st4.nextEventId, event_id := some e, session_id := ev.session_id,
          agent_type := ev.agent_type, event_type := ev.event_type,
          tool_name := orNullStr ev.tool_name, status := ev.status,
          tokens_in := ev.tokens_in, tokens_out := ev.tokens_out,
          branch := orNullStr ev.branch, project := orNullStr ev.project,
          duration_ms := orNullNum ev.duration_ms, created_at := now,
          client_timestamp := orNullStr ev.client_timestamp,
          metadata := meta.1, payload_truncated := meta.2,
          model := orNullStr ev.model, cost_usd := cost,
          cache_read_tokens := ev.cache_read_tokens.getD 0,
          cache_write_tokens := ev.cache_write_tokens.getD 0,
          source := (orNullStr ev.source).getD "api" }
      (some row, { st4 with events := st4.events ++ [row], nextEventId := st4.nextEventId + 1 })
  | none =>
    let row : EventRow :=
      { id := st4.nextEventId, event_id := none, session_id := ev.session_id,
        agent_type := ev.agent_type, event_type := ev.event_type,
        tool_name := orNullStr ev.tool_name, status := ev.status,
        tokens_in := ev.tokens_in, tokens_out := ev.tokens_out,
        branch := orNullStr ev.branch, project := orNullStr ev.project,
        duration_ms := orNullNum ev.duration_ms, created_at := now,
        client_timestamp := orNullStr ev.client_timestamp,
        metadata := meta.1, payload_truncated := meta.2,
        model := orNullStr ev.model, cost_usd := cost,
        cache_read_tokens := ev.cache_read_tokens.getD 0,
        cache_write_tokens := ev.cache_write_tokens.getD 0,
        source := (orNullStr ev.source).getD "api" }
    (some row, { st4 with events := st4.events ++ [row], nextEventId := st4.nextEventId + 1 })

/-- The canonical event handed from the contract to `insertEvent` by the
ingest routes (field-for-field; the normalized event's fields coincide
with the insert parameters). -/
def toInsertInput (ev : NormalizedIngestEvent) : InsertEventInput :=
  { event_id := ev.event_id, session_id := ev.session_id, agent_type := ev.agent_type,
    event_type := ev.event_type, tool_name := ev.tool_name, status := ev.status,
    tokens_in := ev.tokens_in, tokens_out := ev.tokens_out, branch := ev.branch,
    project := ev.project, duration_ms := ev.duration_ms, metadata := ev.metadata,
    client_timestamp := ev.client_timestamp, model := ev.model, cost_usd := ev.cost_usd,
    cache_read_tokens := some ev.cache_read_tokens,
    cache_write_tokens := some ev.cache_write_tokens, source := ev.source }

/-- Outcome of `POST /api/events` (src/api/events.ts:9-28): a 400 with
field errors, a 200 duplicate acknowledgment, or a 201 acceptance with
the assigned row id. -/
inductive ApiOutcome where
  | rejected (errors : List FieldError)
  | duplicate
  | accepted (id : Nat)
deriving Repr, DecidableEq

/-- Result of one ingest request: the response outcome, the store
afterwards, and the rows handed to the broadcaster. -/
structure SubmitResult where
  outcome : ApiOutcome
  state : DbState
  broadcasts : List EventRow

/-- The single-event ingest handler `eventsRouter.post('/')`
(src/api/events.ts:9-28): validate, insert, and broadcast only a freshly
persisted row (a duplicate produces no broadcast). -/
def postEvent (reg : Registry) (maxPayloadKB : Nat)
    (parseDate : String → Option String) (now : Nat) (body : JsValue)
    (st : DbState) : SubmitResult :=
  match normalizeIngestEvent parseDate body with
  | .err errors => { outcome := .rejected errors, state := st, broadcasts := [] }
  | .ok ev =>
    match insertEvent reg maxPayloadKB now (toInsertInput ev) st with
    | (none, st2) => { outcome := .duplicate, state := st2, broadcasts := [] }
    | (some row, st2) => { outcome := .accepted row.id, state := st2, broadcasts := [row] }

/-- First session row with the given id (`WHERE id = ?`). -/
def findSession (st : DbState) (id : String) : Option Session :=
  st.sessions.find? (fun s => s.id = id)

/-- The serialized form whose byte length `truncateMetadata` compares
against the cap: the string itself for string payloads, otherwise the
JSON serialization of `metadata ?? {}`. -/
def serializedMetadata (metadata : JsValue) : String :=
  match metadata with
  | .vstr s => s
  | md => safeJsonStringify (if md matches .vnull then .vobj [] else md)

/-- A one-model provider data file used to instantiate universally
quantified pricing theorems at a concrete input ($3 per million input
tokens). -/
def demoPricingFile : PricingDataFile :=
  { provider := "anthropic"
    models := [("claude-demo",
      { aliases := ["claude-demo-alias"], inputCostPerMTok := 3, outputCostPerMTok := 15,
        cacheReadCostPerMTok := (3 : ℚ) / 10, cacheWriteCostPerMTok := (15 : ℚ) / 4,
        deprecated := false })] }

/-- An OTLP attribute value holding one string. -/
def strAttr (s : String) : OtelAnyValue :=
  { stringValue := some s, intValue := none, doubleValue := none }

/-- A one-data-point cumulative token-usage payload for session `sessA`
of a claude_code service, reporting the raw counter value `v` for the
`input` token type; used to instantiate the cumulative-delta theorems. -/
def demoMetricsPayload (v : ℚ) : OtelMetricsPayload :=
  { resourceMetrics := some [
      { resource := some { attributes :=
          [{ key := "service.name", value := strAttr "claude_code" },
           { key := "session.id", value := strAttr "sessA" }] }
        scopeMetrics := some [
          { metrics := some [
              { name := some "claude_code.token.usage"
                sum := some
                  { dataPoints := some [
                      { asInt := none, asDouble := some v,
                        attributes := [{ key := "type", value := strAttr "input" }] }]
                    isMonotonic := some true
                    aggregationTemporality := some 2 }
                gauge := none }] }] }] }

/-- The cursor key the demo payload produces. -/
def demoKey : String := "sessA|claude_code|claude_code.token.usage||input"

/-- The synthetic input-token delta entry the demo payload produces. -/
def demoDelta (d : ℚ) : ParsedMetricDelta :=
  { session_id := "sessA", agent_type := "claude_code", model := none,
    tokens_in_delta := d, tokens_out_delta := 0, cache_read_delta := 0,
    cache_write_delta := 0, cost_usd_delta := 0 }

/-- A minimal insert input used to instantiate write-path theorems. -/
def demoEvent (sid agentType eventType : String) (srcTag : Option String)
    (eid : Option String) : InsertEventInput :=
  { event_id := eid, session_id := sid, agent_type := agentType, event_type := eventType,
    tool_name := none, status := "success", tokens_in := 0, tokens_out := 0,
    branch := none, project := none, duration_ms := none, metadata := .vobj [],
    client_timestamp := none, model := none, cost_usd := none,
    cache_read_tokens := none, cache_write_tokens := none, source := srcTag }

/-- A codex session that is already `ended` (ended at time `t`, last
event at time 5). -/
def endedSession (t : Nat) : Session :=
  { id := "s1", agent_id := "codex-default", agent_type := "codex", project := none,
    branch := none, status := .ended, started_at := 1, ended_at := some t,
    last_event_at := 5 }

/-- A store holding exactly the ended session. -/
def endedState (t : Nat) : DbState :=
  { agents := [], sessions := [endedSession t], events := [], nextEventId := 1 }

/-- The empty store. -/
def emptyState : DbState :=
  { agents := [], sessions := [], events := [], nextEventId := 1 }

/-- A stored row carrying the client-supplied dedup key `"e1"`. -/
def demoRow : EventRow :=
  { id := 1, event_id := some "e1", session_id := "s1", agent_type := "codex",
    event_type := "tool_use", tool_name := none, status := "success", tokens_in := 0,
    tokens_out := 0, branch := none, project := none, duration_ms := none, created_at := 2,
    client_timestamp := none, metadata := "", payload_truncated := false, model := none,
    cost_usd := none, cache_read_tokens := 0, cache_write_tokens := 0, source := "api" }

/-- A raw ingest body carrying the dedup key `"e1"`. -/
def demoBody : JsValue :=
  .vobj [("session_id", .vstr "s1"), ("agent_type", .vstr "codex"),
         ("event_type", .vstr "tool_use"), ("event_id", .vstr "e1")]

/-- The canonical event the contract derives from `demoBody`. -/
def demoNormalized : NormalizedIngestEvent :=
  { event_id := some "e1", session_id := "s1", agent_type := "codex",
    event_type := "tool_use", tool_name := none, status := "success", tokens_in := 0,
    tokens_out := 0, branch := none, project := none, duration_ms := none,
    metadata := .vobj [], client_timestamp := none, model := none, cost_usd := none,
    cache_read_tokens := 0, cache_write_tokens := 0, source := none }

/-! ## Theorems -/

theorem utf8SliceGo_bytes_le (maxBytes : Nat) :
    ∀ (l : List Char) (cur : Nat), cur ≤ maxBytes →
      cur + ((utf8SliceGo maxBytes cur l).map Char.utf8Size).sum ≤ maxBytes := by
  intro l
  induction l with
  | nil => intro cur h; simpa [utf8SliceGo] using h
  | cons c rest ih =>
    intro cur h
    by_cases hc : cur + c.utf8Size > maxBytes
    · simpa [utf8SliceGo, hc] using h
    · have h2 : cur + c.utf8Size ≤ maxBytes := Nat.le_of_not_lt hc
      have := ih (cur + c.utf8Size) h2
      simp only [utf8SliceGo, hc, if_false, List.map_cons, List.sum_cons]
      omega

theorem utf8SliceGo_isPrefix (maxBytes : Nat) :
    ∀ (l : List Char) (cur : Nat), ∃ t, utf8SliceGo maxBytes cur l ++ t = l := by
  intro l
  induction l with
  | nil => intro cur; exact ⟨[], rfl⟩
  | cons c rest ih =>
    intro cur
    by_cases hc : cur + c.utf8Size > maxBytes
    · exact ⟨c :: rest, by simp [utf8SliceGo, hc]⟩
    · obtain ⟨t, ht⟩ := ih (cur + c.utf8Size)
      exact ⟨t, by simp [utf8SliceGo, hc, ht]⟩

theorem byteLength_mk (l : List Char) :
    byteLength ⟨l⟩ = (l.map Char.utf8Size).sum := rfl

theorem utf8SliceByBytes_bytes_le (s : String) (m : Nat) :
    byteLength (utf8SliceByBytes s m) ≤ m := by
  unfold utf8SliceByBytes
  by_cases hm : m = 0
  · simp [hm, byteLength]
  · simp only [hm, if_false, byteLength_mk]
    have := utf8SliceGo_bytes_le m s.data 0 (Nat.zero_le m)
    omega

theorem utf8SliceByBytes_isPrefix (s : String) (m : Nat) :
    ∃ t, (utf8SliceByBytes s m).data ++ t = s.data := by
  unfold utf8SliceByBytes
  by_cases hm : m = 0
  · exact ⟨s.data, by simp [hm]⟩
  · simp only [hm, if_false]
    exact utf8SliceGo_isPrefix m s.data 0

theorem truncateMetadata_under (kb : Nat) (metadata : JsValue)
    (h : byteLength (serializedMetadata metadata) ≤ kb * 1024) :
    (truncateMetadata kb metadata).2 = false ∧
    (truncateMetadata kb metadata).1 = serializedMetadata metadata := by
  cases metadata <;> simp_all [truncateMetadata, serializedMetadata]

theorem truncOverAuxStr (cap : Nat) (s : String) (h : cap < byteLength s) :
    byteLength (if byteLength s ≤ cap then (s, false)
      else (utf8SliceByBytes s cap, true)).1 ≤ cap ∧
    (if byteLength s ≤ cap then ((s : String), false)
      else (utf8SliceByBytes s cap, true)).2 = true := by
  rw [if_neg (Nat.not_le.mpr h)]
  exact ⟨utf8SliceByBytes_bytes_le _ _, rfl⟩

theorem truncOverAux (cap : Nat) (serialized summary : String)
    (h : cap < byteLength serialized) :
    byteLength (if byteLength serialized ≤ cap then (serialized, false)
      else if byteLength summary ≤ cap then (summary, true)
      else (utf8SliceByBytes summary cap, true)).1 ≤ cap ∧
    (if byteLength serialized ≤ cap then ((serialized : String), false)
      else if byteLength summary ≤ cap then (summary, true)
      else (utf8SliceByBytes summary cap, true)).2 = true := by
  rw [if_neg (Nat.not_le.mpr h)]
  split_ifs with h2
  · exact ⟨h2, rfl⟩
  · exact ⟨utf8SliceByBytes_bytes_le _ _, rfl⟩

theorem truncateMetadata_over (kb : Nat) (metadata : JsValue)
    (h : kb * 1024 < byteLength (serializedMetadata metadata)) :
    byteLength (truncateMetadata kb metadata).1 ≤ kb * 1024 ∧
    (truncateMetadata kb metadata).2 = true := by
  cases metadata
  case vstr s => exact truncOverAuxStr (kb * 1024) s h
  case vnum n => exact truncOverAux (kb * 1024) _ _ h
  case vbool b => exact truncOverAux (kb * 1024) _ _ h
  case vnull => exact truncOverAux (kb * 1024) _ _ h
  case vobj fields => exact truncOverAux (kb * 1024) _ _ h
  case varr items => exact truncOverAux (kb * 1024) _ _ h

/-- C3. For every metadata payload whose serialized UTF-8 byte length
exceeds the configured cap (`maxPayloadKB * 1024`), the stored value's
byte length is at most the cap and `payload_truncated` is set; for every
payload at or under the cap, `payload_truncated` is unset and the stored
value is the full serialized payload, byte for byte.  Truncation operates
on whole code points — the byte-level slice always returns a code-point
prefix of its input, so a multi-byte code point is never split. -/
theorem truncateMetadata_spec (kb : Nat) (metadata : JsValue) :
    (byteLength (serializedMetadata metadata) ≤ kb * 1024 →
      (truncateMetadata kb metadata).2 = false ∧
      (truncateMetadata kb metadata).1 = serializedMetadata metadata) ∧
    (kb * 1024 < byteLength (serializedMetadata metadata) →
      byteLength (truncateMetadata kb metadata).1 ≤ kb * 1024 ∧
      (truncateMetadata kb metadata).2 = true) ∧
    (∀ (s : String) (m : Nat),
      byteLength (utf8SliceByBytes s m) ≤ m ∧
      ∃ t, (utf8SliceByBytes s m).data ++ t = s.data) :=
  ⟨truncateMetadata_under kb metadata, truncateMetadata_over kb metadata,
    fun s m => ⟨utf8SliceByBytes_bytes_le s m, utf8SliceByBytes_isPrefix s m⟩⟩

/-- Witness for C3 at a concrete input: the empty-object payload under a
zero cap is over the cap, gets truncated, and the truncated value fits
the cap; a small string payload under a generous cap is stored verbatim
and unmarked. -/
theorem truncateMetadata_spec_witness :
    ((0 : Nat) * 1024 < byteLength (serializedMetadata (.vobj [])) ∧
      byteLength (truncateMetadata 0 (.vobj [])).1 ≤ 0 * 1024 ∧
      (truncateMetadata 0 (.vobj [])).2 = true) ∧
    (byteLength (serializedMetadata (.vstr "ok")) ≤ 1 * 1024 ∧
      (truncateMetadata 1 (.vstr "ok")).2 = false ∧
      (truncateMetadata 1 (.vstr "ok")).1 = serializedMetadata (.vstr "ok")) := by
  constructor
  · have h := (truncateMetadata_spec 0 (.vobj [])).2.1 (by decide)
    exact ⟨by decide, h.1, h.2⟩
  · have h := (truncateMetadata_spec 1 (.vstr "ok")).1 (by decide)
    exact ⟨by decide, h.1, h.2⟩

theorem mapGet_mapSet_self {α : Type} (m : List (String × α)) (k : String) (v : α) :
    mapGet (mapSet m k v) k = some v := by
  unfold mapSet
  split_ifs with h
  · induction m with
    | nil => simp at h
    | cons p rest ih =>
      by_cases hp : p.1 = k
      · simp [mapGet, hp]
      · have h2 : rest.any (fun q => q.1 = k) := by
          simpa [List.any_cons, hp] using h
        simpa [mapGet, hp] using ih h2
  · induction m with
    | nil => simp [mapGet]
    | cons p rest ih =>
      have hp : ¬ p.1 = k := by
        intro hk
        exact absurd (by simp [List.any_cons, hk]) h
      have h2 : ¬ rest.any (fun q => q.1 = k) := by
        intro hk
        exact absurd (by simp [List.any_cons, hk]) h
      simpa [mapGet, hp] using ih h2

theorem mapGet_map_overwrite {α : Type} (k k2 : String) (v : α) (hne : k2 ≠ k) :
    ∀ m : List (String × α),
      mapGet (m.map (fun p => if p.1 = k then (k, v) else p)) k2 = mapGet m k2 := by
  intro m
  induction m with
  | nil => rfl
  | cons p rest ih =>
    by_cases hp : p.1 = k
    · have hk2 : ¬ ((k : String) = k2) := fun hk => hne hk.symm
      have hpk2 : ¬ p.1 = k2 := by rw [hp]; exact hk2
      simp only [List.map_cons, mapGet, List.find?, hp, if_pos rfl]
      simp only [mapGet] at ih
      simpa [hk2, hpk2] using ih
    · by_cases hq : p.1 = k2
      · simp [mapGet, List.find?, hp, hq, hne]
      · simp only [List.map_cons, mapGet, List.find?, if_neg hp]
        simp only [mapGet] at ih
        simpa [hq] using ih

theorem mapGet_append_single {α : Type} (k k2 : String) (v : α) (hne : k2 ≠ k) :
    ∀ m : List (String × α), mapGet (m ++ [(k, v)]) k2 = mapGet m k2 := by
  intro m
  induction m with
  | nil => simp [mapGet, List.find?, hne.symm]
  | cons p rest ih =>
    by_cases hq : p.1 = k2
    · simp [mapGet, List.find?, hq]
    · simp only [List.cons_append, mapGet, List.find?]
      simp only [mapGet] at ih
      simpa [hq] using ih

theorem mapGet_mapSet_ne {α : Type} (m : List (String × α)) (k k2 : String) (v : α)
    (hne : k2 ≠ k) : mapGet (mapSet m k v) k2 = mapGet m k2 := by
  unfold mapSet
  split_ifs with h
  · exact mapGet_map_overwrite k k2 v hne m
  · exact mapGet_append_single k k2 v hne m

/-- Every pricing entry reachable in a registry built by `loadAll` was
produced by the `loadProvider` per-million-to-per-token conversion. -/
def RegistryFromData (reg : Registry) : Prop :=
  ∀ name p, mapGet reg.models name = some p →
    ∃ provider dm, p = toModelPricing provider dm

theorem loadModelEntry_fromData (provider : String) (reg : Registry)
    (entry : String × PricingDataModel) (h : RegistryFromData reg) :
    RegistryFromData (loadModelEntry provider reg entry) := by
  intro name p hp
  have hm : (loadModelEntry provider reg entry).models
      = mapSet reg.models entry.1 (toModelPricing provider entry.2) := rfl
  rw [hm] at hp
  by_cases hn : name = entry.1
  · rw [hn, mapGet_mapSet_self] at hp
    exact ⟨provider, entry.2, (Option.some.injEq _ _ ▸ hp).symm ▸ rfl⟩
  · rw [mapGet_mapSet_ne _ _ _ _ hn] at hp
    exact h name p hp

theorem loadProvider_fromData (reg : Registry) (data : PricingDataFile)
    (h : RegistryFromData reg) : RegistryFromData (loadProvider reg data) := by
  unfold loadProvider
  induction data.models generalizing reg with
  | nil => simpa using h
  | cons e rest ih =>
    simpa using ih (loadModelEntry data.provider reg e) (loadModelEntry_fromData _ _ _ h)

theorem loadAll_fromData (files : List PricingDataFile) :
    RegistryFromData (loadAll files) := by
  unfold loadAll
  have base : RegistryFromData { models := [], aliases := [] } := by
    intro name p hp
    simp [mapGet] at hp
  generalize hr : ({ models := [], aliases := [] } : Registry) = r0
  rw [hr] at base
  clear hr
  induction files generalizing r0 with
  | nil => simpa using base
  | cons f rest ih =>
    simpa using ih (loadProvider r0 f) (loadProvider_fromData _ _ base)

theorem lookup_mem_models (reg : Registry) (model : String) (p : ModelPricing)
    (h : reg.lookup model = some p) :
    ∃ name, mapGet reg.models name = some p := by
  simp only [Registry.lookup] at h
  cases hd : mapGet reg.models (normalizeModelName model) with
  | some q =>
    rw [hd] at h
    exact ⟨normalizeModelName model, hd.trans h⟩
  | none =>
    rw [hd] at h
    cases ha : mapGet reg.aliases (normalizeModelName model) with
    | none => rw [ha] at h; exact absurd h (by simp)
    | some canonical =>
      rw [ha] at h
      exact ⟨canonical, h⟩

/-- C5. For every model known to a registry loaded from provider data,
`calculate(model, tokens)` returns exactly
`input*rateIn + output*rateOut + cacheRead*rateCacheRead +
cacheWrite*rateCacheWrite`, where each per-token rate is the loaded
per-million-token rate divided by 1,000,000 (so a model whose input rate
is $3 per million tokens prices 1,000,000 input tokens at exactly $3);
for every model the lookup cannot resolve, `calculate` returns the
not-found result `none`, never a numeric zero. -/
theorem calculate_spec (files : List PricingDataFile) (model : String) (tokens : TokenCounts) :
    ((loadAll files).lookup model = none →
      (loadAll files).calculate model tokens = none) ∧
    (∀ p, (loadAll files).lookup model = some p →
      (∃ (provider : String) (dm : PricingDataModel),
        p = toModelPricing provider dm ∧
        p.inputCostPerToken = dm.inputCostPerMTok / 1000000 ∧
        p.outputCostPerToken = dm.outputCostPerMTok / 1000000 ∧
        p.cacheReadCostPerToken = dm.cacheReadCostPerMTok / 1000000 ∧
        p.cacheWriteCostPerToken = dm.cacheWriteCostPerMTok / 1000000) ∧
      (loadAll files).calculate model tokens =
        some (tokens.input * p.inputCostPerToken + tokens.output * p.outputCostPerToken
          + (tokens.cacheRead.getD 0) * p.cacheReadCostPerToken
          + (tokens.cacheWrite.getD 0) * p.cacheWriteCostPerToken)) ∧
    (∀ p, (loadAll files).lookup model = some p → p.inputCostPerToken = 3 / 1000000 →
      (loadAll files).calculate model
        { input := 1000000, output := 0, cacheRead := none, cacheWrite := none } = some 3) := by
  refine ⟨?_, ?_, ?_⟩
  · intro h
    unfold Registry.calculate
    rw [h]
  · intro p hp
    constructor
    · obtain ⟨name, hm⟩ := lookup_mem_models _ _ _ hp
      obtain ⟨provider, dm, hdm⟩ := loadAll_fromData files name p hm
      refine ⟨provider, dm, hdm, ?_, ?_, ?_, ?_⟩ <;> rw [hdm] <;> rfl
    · unfold Registry.calculate
      rw [hp]
  · intro p hp hrate
    unfold Registry.calculate
    rw [hp]
    simp only [Option.getD_none, hrate]
    norm_num

/-- Witness for C5: a registry loaded from a file whose demo model costs
$3 per million input tokens prices 1,000,000 input tokens at exactly $3,
and an unknown model yields the not-found result. -/
theorem calculate_spec_witness :
    (loadAll [demoPricingFile]).calculate "claude-demo"
      { input := 1000000, output := 0, cacheRead := none, cacheWrite := none } = some 3 ∧
    (loadAll [demoPricingFile]).lookup "no-such-model" = none ∧
    (loadAll [demoPricingFile]).calculate "no-such-model"
      { input := 1000000, output := 0, cacheRead := none, cacheWrite := none } = none := by
  have hlk : (loadAll [demoPricingFile]).lookup "claude-demo"
      = some (toModelPricing "anthropic"
        { aliases := ["claude-demo-alias"], inputCostPerMTok := 3, outputCostPerMTok := 15,
          cacheReadCostPerMTok := (3 : ℚ) / 10, cacheWriteCostPerMTok := (15 : ℚ) / 4,
          deprecated := false }) := by rfl
  have hnone : (loadAll [demoPricingFile]).lookup "no-such-model" = none := by rfl
  refine ⟨?_, hnone, ?_⟩
  · exact (calculate_spec [demoPricingFile] "claude-demo"
      { input := 1000000, output := 0, cacheRead := none, cacheWrite := none }).2.2
      _ hlk (by norm_num [toModelPricing, M_TOK])
  · exact (calculate_spec [demoPricingFile] "no-such-model"
      { input := 1000000, output := 0, cacheRead := none, cacheWrite := none }).1 hnone

theorem normalizeEventType_fst (value : String) : (normalizeEventType value).1 = value := by
  unfold normalizeEventType
  split_ifs <;> rfl

/-- The error list of `normalizeRecord` is exactly the concatenation of
every field validator's own errors, in push order, and the produced
event's `event_type` is the raw extracted value. -/
theorem normalizeRecord_spec (pd : String → Option String)
    (fields : List (String × JsValue)) :
    (normalizeRecord pd fields).2 =
      (getRequiredString fields "session_id").2 ++
      (getRequiredString fields "agent_type").2 ++
      (getRequiredString fields "event_type").2 ++
      (normalizeEventType (getRequiredString fields "event_type").1).2 ++
      (normalizeStatus fields (normalizeEventType (getRequiredString fields "event_type").1).1).2 ++
      (getOptionalString fields "event_id").2 ++
      (getOptionalString fields "tool_name").2 ++
      (getOptionalString fields "branch").2 ++
      (getOptionalString fields "project").2 ++
      (getOptionalString fields "model").2 ++
      (getOptionalNonNegativeInt fields "duration_ms").2 ++
      (getOptionalNonNegativeInt fields "tokens_in").2 ++
      (getOptionalNonNegativeInt fields "tokens_out").2 ++
      (getOptionalNonNegativeInt fields "cache_read_tokens").2 ++
      (getOptionalNonNegativeInt fields "cache_write_tokens").2 ++
      (getOptionalNonNegativeNumber fields "cost_usd").2 ++
      (normalizeClientTimestamp pd fields).2 ++
      (getOptionalString fields "source").2 ∧
    (normalizeRecord pd fields).1.event_type = (getRequiredString fields "event_type").1 := by
  rcases h1 : getRequiredString fields "session_id" with ⟨v1, e1⟩
  rcases h2 : getRequiredString fields "agent_type" with ⟨v2, e2⟩
  rcases h3 : getRequiredString fields "event_type" with ⟨v3, e3⟩
  rcases h4 : normalizeEventType v3 with ⟨v4, e4⟩
  rcases h5 : normalizeStatus fields v4 with ⟨v5, e5⟩
  rcases h6 : getOptionalString fields "event_id" with ⟨v6, e6⟩
  rcases h7 : getOptionalString fields "tool_name" with ⟨v7, e7⟩
  rcases h8 : getOptionalString fields "branch" with ⟨v8, e8⟩
  rcases h9 : getOptionalString fields "project" with ⟨v9, e9⟩
  rcases h10 : getOptionalString fields "model" with ⟨v10, e10⟩
  rcases h11 : getOptionalNonNegativeInt fields "duration_ms" with ⟨v11, e11⟩
  rcases h12 : getOptionalNonNegativeInt fields "tokens_in" with ⟨v12, e12⟩
  rcases h13 : getOptionalNonNegativeInt fields "tokens_out" with ⟨v13, e13⟩
  rcases h14 : getOptionalNonNegativeInt fields "cache_read_tokens" with ⟨v14, e14⟩
  rcases h15 : getOptionalNonNegativeInt fields "cache_write_tokens" with ⟨v15, e15⟩
  rcases h16 : getOptionalNonNegativeNumber fields "cost_usd" with ⟨v16, e16⟩
  rcases h17 : normalizeClientTimestamp pd fields with ⟨v17, e17⟩
  rcases h18 : getOptionalString fields "source" with ⟨v18, e18⟩
  have h4f : v4 = v3 := by
    have := normalizeEventType_fst v3
    rw [h4] at this
    exact this
  constructor
  · simp only [normalizeRecord, h1, h2, h3, h4, h5, h6, h7, h8, h9, h10, h11, h12,
      h13, h14, h15, h16, h17, h18]
  · simp only [normalizeRecord, h1, h2, h3, h4, h5, h6, h7, h8, h9, h10, h11, h12,
      h13, h14, h15, h16, h17, h18, h4f]

/-- C6. For every input record, the contract either accepts (producing a
canonical event) or rejects with a non-empty list of `{field, message}`
errors; for object inputs the final error list is the concatenation of
every field validator's own errors in declaration order — validation is
exhaustive, never fail-fast — and in particular an `event_type` outside
the closed enumeration contributes its field error to the list while the
remaining fields are still validated and their errors kept alongside. -/
theorem normalizeIngestEvent_exhaustive (pd : String → Option String) (input : JsValue) :
    ((∃ ev, normalizeIngestEvent pd input = .ok ev) ∨
      (∃ errs, normalizeIngestEvent pd input = .err errs ∧ errs ≠ [])) ∧
    (∀ fields, input = .vobj fields →
      (normalizeRecord pd fields).2 =
        (getRequiredString fields "session_id").2 ++
        (getRequiredString fields "agent_type").2 ++
        (getRequiredString fields "event_type").2 ++
        (normalizeEventType (getRequiredString fields "event_type").1).2 ++
        (normalizeStatus fields
          (normalizeEventType (getRequiredString fields "event_type").1).1).2 ++
        (getOptionalString fields "event_id").2 ++
        (getOptionalString fields "tool_name").2 ++
        (getOptionalString fields "branch").2 ++
        (getOptionalString fields "project").2 ++
        (getOptionalString fields "model").2 ++
        (getOptionalNonNegativeInt fields "duration_ms").2 ++
        (getOptionalNonNegativeInt fields "tokens_in").2 ++
        (getOptionalNonNegativeInt fields "tokens_out").2 ++
        (getOptionalNonNegativeInt fields "cache_read_tokens").2 ++
        (getOptionalNonNegativeInt fields "cache_write_tokens").2 ++
        (getOptionalNonNegativeNumber fields "cost_usd").2 ++
        (normalizeClientTimestamp pd fields).2 ++
        (getOptionalString fields "source").2 ∧
      (¬ EVENT_TYPES.contains (getRequiredString fields "event_type").1 = true →
        FieldError.mk "event_type"
          ("must be one of: " ++ String.intercalate ", " EVENT_TYPES)
          ∈ (normalizeRecord pd fields).2)) := by
  constructor
  · cases input with
    | vobj fields =>
      simp only [normalizeIngestEvent]
      by_cases he : (normalizeRecord pd fields).2 = []
      · left
        exact ⟨(normalizeRecord pd fields).1, by rw [if_pos he]⟩
      · right
        exact ⟨(normalizeRecord pd fields).2, by rw [if_neg he], he⟩
    | vstr s => exact Or.inr ⟨_, rfl, by simp⟩
    | vnum n => exact Or.inr ⟨_, rfl, by simp⟩
    | vbool b => exact Or.inr ⟨_, rfl, by simp⟩
    | vnull => exact Or.inr ⟨_, rfl, by simp⟩
    | varr items => exact Or.inr ⟨_, rfl, by simp⟩
  · rintro fields rfl
    refine ⟨(normalizeRecord_spec pd fields).1, ?_⟩
    intro hno
    rw [(normalizeRecord_spec pd fields).1]
    have he4 : (normalizeEventType (getRequiredString fields "event_type").1).2 =
        [⟨"event_type", "must be one of: " ++ String.intercalate ", " EVENT_TYPES⟩] := by
      unfold normalizeEventType
      rw [if_neg hno]
    simp [he4]

/-- Witness for C6: a record whose `event_type` is outside the
enumeration, whose `session_id` is absent, and whose `tokens_in` is a
string has all three field errors reported together. -/
theorem normalizeIngestEvent_exhaustive_witness :
    FieldError.mk "event_type" ("must be one of: " ++ String.intercalate ", " EVENT_TYPES)
      ∈ (normalizeRecord (fun _ => none)
        [("event_type", .vstr "bogus"), ("agent_type", .vstr "codex"),
         ("tokens_in", .vstr "5")]).2 ∧
    FieldError.mk "session_id" "must be a string"
      ∈ (normalizeRecord (fun _ => none)
        [("event_type", .vstr "bogus"), ("agent_type", .vstr "codex"),
         ("tokens_in", .vstr "5")]).2 ∧
    FieldError.mk "tokens_in" "must be a non-negative integer when provided"
      ∈ (normalizeRecord (fun _ => none)
        [("event_type", .vstr "bogus"), ("agent_type", .vstr "codex"),
         ("tokens_in", .vstr "5")]).2 := by
  have h := (normalizeIngestEvent_exhaustive (fun _ => none)
    (.vobj [("event_type", .vstr "bogus"), ("agent_type", .vstr "codex"),
            ("tokens_in", .vstr "5")])).2 _ rfl
  refine ⟨h.2 (by decide), ?_, ?_⟩ <;> rw [h.1] <;> decide

theorem mapGet_cons_pos {α : Type} (p : String × α) (rest : List (String × α))
    (k : String) (hp : p.1 = k) : mapGet (p :: rest) k = some p.2 := by
  unfold mapGet
  rw [List.find?_cons_of_pos _ (by simp [hp])]
  rfl

theorem mapGet_cons_neg {α : Type} (p : String × α) (rest : List (String × α))
    (k : String) (hp : ¬ p.1 = k) : mapGet (p :: rest) k = mapGet rest k := by
  unfold mapGet
  rw [List.find?_cons_of_neg _ (by simp [hp])]

theorem mapGet_mem_values {α : Type} (m : List (String × α)) (k : String) (v : α)
    (h : mapGet m k = some v) : v ∈ m.map Prod.snd := by
  induction m with
  | nil => simp [mapGet] at h
  | cons p rest ih =>
    by_cases hp : p.1 = k
    · rw [mapGet_cons_pos p rest k hp] at h
      injection h with h
      rw [List.map_cons, ← h]
      exact List.mem_cons_self _ _
    · rw [mapGet_cons_neg p rest k hp] at h
      rw [List.map_cons]
      exact List.mem_cons_of_mem _ (ih h)

theorem normalizeIngestEvent_ok_event_type (pd : String → Option String) (input : JsValue)
    (ev : NormalizedIngestEvent) (h : normalizeIngestEvent pd input = .ok ev) :
    EVENT_TYPES.contains ev.event_type = true := by
  cases input with
  | vobj fields =>
    simp only [normalizeIngestEvent] at h
    by_cases he : (normalizeRecord pd fields).2 = []
    · rw [if_pos he] at h
      have hev : ev = (normalizeRecord pd fields).1 := by
        cases h
        rfl
      obtain ⟨herrs, htype⟩ := normalizeRecord_spec pd fields
      rw [herrs] at he
      simp only [List.append_eq_nil] at he
      by_contra hno
      have hno2 : ¬ EVENT_TYPES.contains (getRequiredString fields "event_type").1 = true := by
        rw [hev, htype] at hno
        exact hno
      have he4 : (normalizeEventType (getRequiredString fields "event_type").1).2 =
          [⟨"event_type", "must be one of: " ++ String.intercalate ", " EVENT_TYPES⟩] := by
        unfold normalizeEventType
        rw [if_neg hno2]
      have hcomp := he.1.1.1.1.1.1.1.1.1.1.1.1.1.1.2
      rw [he4] at hcomp
      simp at hcomp
    · rw [if_neg he] at h
      exact absurd h (by simp)
  | vstr s => simp [normalizeIngestEvent] at h
  | vnum n => simp [normalizeIngestEvent] at h
  | vbool b => simp [normalizeIngestEvent] at h
  | vnull => simp [normalizeIngestEvent] at h
  | varr items => simp [normalizeIngestEvent] at h

/-- Counterexample to C7 as stated: the OTLP log adapter's
`resolveEventType` defaults to `'response'` — for a log record with no
event-name attribute and no `ERROR` severity it returns `"response"`,
which is not a member of the contract's closed `EVENT_TYPES`
enumeration, and this value flows into `insertEvent` unvalidated through
`POST /api/otel/v1/logs`. -/
theorem resolveEventType_response_counterexample :
    resolveEventType { attributes := [], severityText := none } "claude_code" = "response" ∧
    EVENT_TYPES.contains "response" = false := by
  exact ⟨rfl, by decide⟩

/-- C7 (amended). Every event accepted through the validated API
contract has an `event_type` in the closed ten-value enumeration; the
OTLP log adapter's event-type resolution, however, ranges over that
enumeration **plus the extra value `'response'`** (its
maps and its default fallback), so events persisted through the OTLP
log route may carry the out-of-enumeration type `'response'`. -/
theorem eventType_closed_amended :
    (∀ (pd : String → Option String) (input : JsValue) (ev : NormalizedIngestEvent),
      normalizeIngestEvent pd input = .ok ev → EVENT_TYPES.contains ev.event_type = true) ∧
    (∀ (lr : OtelLogRecord) (agentType : String),
      (EVENT_TYPES ++ ["response"]).contains (resolveEventType lr agentType) = true) := by
  constructor
  · exact normalizeIngestEvent_ok_event_type
  · intro lr agentType
    cases hen : (getAttr lr.attributes "event.name").orElse
        (fun _ => getAttr lr.attributes "name") with
    | none =>
      have hr : resolveEventType lr agentType =
          (if lr.severityText = some "ERROR" then "error" else "response") := by
        simp only [resolveEventType]
        rw [hen]
      rw [hr]
      split_ifs <;> decide
    | some n =>
      by_cases hn : n = ""
      · have hr : resolveEventType lr agentType =
            (if lr.severityText = some "ERROR" then "error" else "response") := by
          simp only [resolveEventType]
          rw [hen]
          simp [hn]
        rw [hr]
        split_ifs <;> decide
      · cases hm : mapGet (if agentType = "codex" then CODEX_EVENT_MAP else CLAUDE_EVENT_MAP) n with
        | some t =>
          have hr : resolveEventType lr agentType = t := by
            simp only [resolveEventType]
            rw [hen]
            simp [hn, hm]
          rw [hr]
          have hmem := mapGet_mem_values _ _ _ hm
          by_cases hc : agentType = "codex"
          · rw [if_pos hc] at hmem
            exact (by decide :
              ∀ x ∈ CODEX_EVENT_MAP.map Prod.snd,
                (EVENT_TYPES ++ ["response"]).contains x = true) t hmem
          · rw [if_neg hc] at hmem
            exact (by decide :
              ∀ x ∈ CLAUDE_EVENT_MAP.map Prod.snd,
                (EVENT_TYPES ++ ["response"]).contains x = true) t hmem
        | none =>
          cases hs : mapGet EVENT_TYPE_SUFFIXES (((n.splitOn ".").getLast?).getD "") with
          | some t =>
            have hr : resolveEventType lr agentType = t := by
              simp only [resolveEventType]
              rw [hen]
              simp [hn, hm, hs]
            rw [hr]
            exact (by decide :
              ∀ x ∈ EVENT_TYPE_SUFFIXES.map Prod.snd,
                (EVENT_TYPES ++ ["response"]).contains x = true) t
              (mapGet_mem_values _ _ _ hs)
          | none =>
            have hr : resolveEventType lr agentType =
                (if lr.severityText = some "ERROR" then "error" else "response") := by
              simp only [resolveEventType]
              rw [hen]
              simp [hn, hm, hs]
            rw [hr]
            split_ifs <;> decide

/-- Witness for C7 (amended), applying the theorem at a concrete
accepted API event and a concrete OTLP log record. -/
theorem eventType_closed_amended_witness :
    (∀ ev, normalizeIngestEvent (fun _ => none)
        (.vobj [("session_id", .vstr "s1"), ("agent_type", .vstr "codex"),
                ("event_type", .vstr "tool_use")]) = .ok ev →
      EVENT_TYPES.contains ev.event_type = true) ∧
    (EVENT_TYPES ++ ["response"]).contains
      (resolveEventType { attributes := [], severityText := none } "claude_code") = true := by
  exact ⟨fun ev h => eventType_closed_amended.1 (fun _ => none) _ ev h,
    eventType_closed_amended.2 { attributes := [], severityText := none } "claude_code"⟩

theorem computeDelta_state (key : String) (v : ℚ) (st : CumulativeState) :
    (computeDelta key v st).2 = mapSet st key v := by
  simp only [computeDelta]
  cases mapGet st key <;> rfl

theorem pipeJoin_inj : ∀ (l1 l2 t1 t2 : List Char), '|' ∉ l1 → '|' ∉ l2 →
    l1 ++ '|' :: t1 = l2 ++ '|' :: t2 → l1 = l2 := by
  intro l1
  induction l1 with
  | nil =>
    intro l2 t1 t2 _ h2 he
    cases l2 with
    | nil => rfl
    | cons b bs =>
      simp only [List.nil_append, List.cons_append, List.cons.injEq] at he
      exact absurd (by rw [he.1]; exact List.mem_cons_self b bs) h2
  | cons a as ih =>
    intro l2 t1 t2 h1 h2 he
    cases l2 with
    | nil =>
      simp only [List.cons_append, List.nil_append, List.cons.injEq] at he
      exact absurd (by rw [← he.1]; exact List.mem_cons_self a as) h1
    | cons b bs =>
      simp only [List.cons_append, List.cons.injEq] at he
      have h1b : '|' ∉ as := fun hm => h1 (List.mem_cons_of_mem _ hm)
      have h2b : '|' ∉ bs := fun hm => h2 (List.mem_cons_of_mem _ hm)
      rw [he.1, ih bs t1 t2 h1b h2b he.2]

theorem metricCacheKey_data (s a m : String) (mo tt : Option String) :
    (metricCacheKey s a m mo tt).data =
      s.data ++ '|' :: (a.data ++ '|' :: (m.data ++ '|' ::
        ((mo.getD "").data ++ '|' :: (tt.getD "").data))) := by
  have hp : ("|" : String).data = ['|'] := rfl
  simp [metricCacheKey, String.data_append, hp, List.append_assoc]

/-- C4. The cumulative-to-delta cursor: the first observation of a key
yields a delta equal to the raw counter value; each later observation
yields current minus previous, clamped to zero on decrease; the cursor
entry of any other key is untouched by an update, and two data points
whose session ids differ (sessions ids being pipe-free) can never share
a cursor key, so two sessions never influence each other's baseline; a
cumulative data point whose computed delta is zero or negative produces
no event; and the concrete cumulative reports 1000, 1500, 1500 for one
key yield the deltas 1000 and 500 and no third event. -/
theorem cumulativeDelta_spec :
    (∀ (key : String) (v : ℚ) (st : CumulativeState),
      mapGet st key = none → (computeDelta key v st).1 = v) ∧
    (∀ (key : String) (v prev : ℚ) (st : CumulativeState),
      mapGet st key = some prev →
      (computeDelta key v st).1 = if v - prev > 0 then v - prev else 0) ∧
    (∀ (key key2 : String) (v : ℚ) (st : CumulativeState), key ≠ key2 →
      mapGet (computeDelta key2 v st).2 key = mapGet st key) ∧
    (∀ (s1 s2 a1 a2 m1 m2 : String) (mo1 mo2 t1 t2 : Option String),
      '|' ∉ s1.data → '|' ∉ s2.data → s1 ≠ s2 →
      metricCacheKey s1 a1 m1 mo1 t1 ≠ metricCacheKey s2 a2 m2 mo2 t2) ∧
    (∀ (ra : List OtelKeyValue) (sid agentT mn : String) (st : CumulativeState)
        (dp : OtelNumberDataPoint),
      (computeDelta (metricCacheKey sid agentT mn
          (((getAttr dp.attributes "model").orElse
            (fun _ => getAttr dp.attributes "gen_ai.request.model")).orElse
            (fun _ => getAttr ra "model"))
          ((getAttr dp.attributes "type").orElse
            (fun _ => getAttr dp.attributes "token.type")))
        (getDataPointValue dp) st).1 ≤ 0 →
      (processDataPoint ra sid agentT mn true st dp).1 = none) ∧
    (parseOtelMetrics (demoMetricsPayload 1000) [] = ([demoDelta 1000], [(demoKey, 1000)]) ∧
      parseOtelMetrics (demoMetricsPayload 1500) [(demoKey, 1000)] =
        ([demoDelta 500], [(demoKey, 1500)]) ∧
      parseOtelMetrics (demoMetricsPayload 1500) [(demoKey, 1500)] =
        ([], [(demoKey, 1500)])) := by
  refine ⟨?_, ?_, ?_, ?_, ?_, ?_, ?_, ?_⟩
  · intro key v st h
    simp [computeDelta, h]
  · intro key v prev st h
    simp [computeDelta, h]
  · intro key key2 v st hne
    rw [computeDelta_state]
    exact mapGet_mapSet_ne st key2 key v hne
  · intro s1 s2 a1 a2 m1 m2 mo1 mo2 t1 t2 h1 h2 hne he
    have hd := congrArg String.data he
    rw [metricCacheKey_data, metricCacheKey_data] at hd
    exact hne (String.ext (pipeJoin_inj _ _ _ _ h1 h2 hd))
  · intro ra sid agentT mn st dp h
    rcases hcd : computeDelta (metricCacheKey sid agentT mn
        (((getAttr dp.attributes "model").orElse
          (fun _ => getAttr dp.attributes "gen_ai.request.model")).orElse
          (fun _ => getAttr ra "model"))
        ((getAttr dp.attributes "type").orElse
          (fun _ => getAttr dp.attributes "token.type")))
      (getDataPointValue dp) st with ⟨d, st2⟩
    rw [hcd] at h
    simp only at h
    simp [processDataPoint, hcd, h]
  · decide
  · have h500 : computeDelta "sessA|claude_code|claude_code.token.usage||input" 1500
        [("sessA|claude_code|claude_code.token.usage||input", 1000)] =
        (500, [("sessA|claude_code|claude_code.token.usage||input", 1500)]) := by
      simp [computeDelta, mapGet, mapSet, List.find?]
      norm_num
    simp [parseOtelMetrics, processResourceList, processScopeList, processMetricList,
      processMetric, processDataPoints, processDataPoint, metricCacheKey, getDataPointValue,
      getAttr, resolveServiceName, jsIncludes, demoMetricsPayload, strAttr, demoKey, demoDelta,
      List.find?, TOKEN_METRICS, COST_METRICS, h500]
    norm_num
  · have h0 : computeDelta "sessA|claude_code|claude_code.token.usage||input" 1500
        [("sessA|claude_code|claude_code.token.usage||input", 1500)] =
        (0, [("sessA|claude_code|claude_code.token.usage||input", 1500)]) := by
      simp [computeDelta, mapGet, mapSet, List.find?]
    simp [parseOtelMetrics, processResourceList, processScopeList, processMetricList,
      processMetric, processDataPoints, processDataPoint, metricCacheKey, getDataPointValue,
      getAttr, resolveServiceName, jsIncludes, demoMetricsPayload, strAttr, demoKey, demoDelta,
      List.find?, TOKEN_METRICS, COST_METRICS, h0]

/-- Witness for C4 at concrete inputs: a fresh key's first delta is the
raw value; a decrease clamps to zero; an update of key `"b|x"` leaves
key `"a|x"` alone; the session ids `"a"`/`"b"` give distinct cursor
keys; and a zero-delta cumulative point produces no event. -/
theorem cumulativeDelta_spec_witness :
    (computeDelta "a|x" 7 []).1 = 7 ∧
    ((computeDelta "a|x" 3 [("a|x", 5)]).1 = if (3 : ℚ) - 5 > 0 then 3 - 5 else 0) ∧
    mapGet (computeDelta "b|x" 9 [("a|x", 5)]).2 "a|x" = mapGet [(("a|x" : String), (5 : ℚ))] "a|x" ∧
    metricCacheKey "a" "c" "m" none none ≠ metricCacheKey "b" "c" "m" none none ∧
    (processDataPoint [] "sessA" "claude_code" "claude_code.token.usage" true
      [("sessA|claude_code|claude_code.token.usage||input", 1500)]
      { asInt := none, asDouble := some 1500,
        attributes := [{ key := "type", value := strAttr "input" }] }).1 = none := by
  refine ⟨cumulativeDelta_spec.1 "a|x" 7 [] (by decide),
    cumulativeDelta_spec.2.1 "a|x" 3 5 [("a|x", 5)] (by decide),
    cumulativeDelta_spec.2.2.1 "a|x" "b|x" 9 [("a|x", 5)] (by decide),
    cumulativeDelta_spec.2.2.2.1 "a" "b" "c" "c" "m" "m" none none none none
      (by decide) (by decide) (by decide), ?_⟩
  refine cumulativeDelta_spec.2.2.2.2.1 [] "sessA" "claude_code" "claude_code.token.usage"
    [("sessA|claude_code|claude_code.token.usage||input", 1500)]
    { asInt := none, asDouble := some 1500,
      attributes := [{ key := "type", value := strAttr "input" }] } ?_
  have h0 : computeDelta "sessA|claude_code|claude_code.token.usage||input" 1500
      [("sessA|claude_code|claude_code.token.usage||input", 1500)] =
      (0, [("sessA|claude_code|claude_code.token.usage||input", 1500)]) := by
    simp [computeDelta, mapGet, mapSet, List.find?]
  simp [metricCacheKey, getAttr, getDataPointValue, List.find?, strAttr, h0]

theorem upsertAgent_events (now : Nat) (aid atype : String) (name : Option String)
    (st : DbState) : (upsertAgent now aid atype name st).events = st.events := by
  unfold upsertAgent
  split_ifs <;> rfl

theorem upsertAgent_sessions (now : Nat) (aid atype : String) (name : Option String)
    (st : DbState) : (upsertAgent now aid atype name st).sessions = st.sessions := by
  unfold upsertAgent
  split_ifs <;> rfl

theorem upsertAgent_nextEventId (now : Nat) (aid atype : String) (name : Option String)
    (st : DbState) : (upsertAgent now aid atype name st).nextEventId = st.nextEventId := by
  unfold upsertAgent
  split_ifs <;> rfl

theorem upsertSession_events (now : Nat) (uid aid atype : String)
    (proj br : Option String) (st : DbState) :
    (upsertSession now uid aid atype proj br st).events = st.events := by
  unfold upsertSession
  split_ifs <;> rfl

theorem upsertSession_nextEventId (now : Nat) (uid aid atype : String)
    (proj br : Option String) (st : DbState) :
    (upsertSession now uid aid atype proj br st).nextEventId = st.nextEventId := by
  unfold upsertSession
  split_ifs <;> rfl

theorem idleSession_events (sid : String) (st : DbState) :
    (idleSession sid st).events = st.events := rfl

theorem endSession_events (now : Nat) (sid : String) (st : DbState) :
    (endSession now sid st).events = st.events := rfl

theorem importEndSession_events (now : Nat) (sid : String) (st : DbState) :
    (importEndSession now sid st).events = st.events := rfl

theorem idleSession_nextEventId (sid : String) (st : DbState) :
    (idleSession sid st).nextEventId = st.nextEventId := rfl

theorem endSession_nextEventId (now : Nat) (sid : String) (st : DbState) :
    (endSession now sid st).nextEventId = st.nextEventId := rfl

theorem importEndSession_nextEventId (now : Nat) (sid : String) (st : DbState) :
    (importEndSession now sid st).nextEventId = st.nextEventId := rfl

theorem lifecycleStep_events (now : Nat) (ev : InsertEventInput) (st : DbState) :
    (if ev.event_type = "session_end" then
      (if ev.agent_type = "claude_code" then idleSession ev.session_id st
       else endSession now ev.session_id st)
     else st).events = st.events := by
  split_ifs <;> rfl

theorem importStep_events (now : Nat) (ev : InsertEventInput) (st : DbState) :
    (if ev.source = some "import" then importEndSession now ev.session_id st else st).events
      = st.events := by
  split_ifs <;> rfl

theorem lifecycleStep_nextEventId (now : Nat) (ev : InsertEventInput) (st : DbState) :
    (if ev.event_type = "session_end" then
      (if ev.agent_type = "claude_code" then idleSession ev.session_id st
       else endSession now ev.session_id st)
     else st).nextEventId = st.nextEventId := by
  split_ifs <;> rfl

theorem importStep_nextEventId (now : Nat) (ev : InsertEventInput) (st : DbState) :
    (if ev.source = some "import" then importEndSession now ev.session_id st else st).nextEventId
      = st.nextEventId := by
  split_ifs <;> rfl

/-- The events list seen by the dedup check and the insert is the
caller's events list: none of the agent/session steps touches `events`. -/
theorem insertEvent_stage_events (reg : Registry) (kb : Nat) (now : Nat)
    (ev : InsertEventInput) (st : DbState) :
    ((if ev.source = some "import" then
        importEndSession now ev.session_id
          (if ev.event_type = "session_end" then
            (if ev.agent_type = "claude_code" then
              idleSession ev.session_id
                (upsertSession now ev.session_id (ev.agent_type ++ "-default") ev.agent_type
                  ev.project ev.branch
                  (upsertAgent now (ev.agent_type ++ "-default") ev.agent_type none st))
             else
              endSession now ev.session_id
                (upsertSession now ev.session_id (ev.agent_type ++ "-default") ev.agent_type
                  ev.project ev.branch
                  (upsertAgent now (ev.agent_type ++ "-default") ev.agent_type none st)))
           else
            upsertSession now ev.session_id (ev.agent_type ++ "-default") ev.agent_type
              ev.project ev.branch
              (upsertAgent now (ev.agent_type ++ "-default") ev.agent_type none st))
      else
        (if ev.event_type = "session_end" then
          (if ev.agent_type = "claude_code" then
            idleSession ev.session_id
              (upsertSession now ev.session_id (ev.agent_type ++ "-default") ev.agent_type
                ev.project ev.branch
                (upsertAgent now (ev.agent_type ++ "-default") ev.agent_type none st))
           else
            endSession now ev.session_id
              (upsertSession now ev.session_id (ev.agent_type ++ "-default") ev.agent_type
                ev.project ev.branch
                (upsertAgent now (ev.agent_type ++ "-default") ev.agent_type none st)))
         else
          upsertSession now ev.session_id (ev.agent_type ++ "-default") ev.agent_type
            ev.project ev.branch
            (upsertAgent now (ev.agent_type ++ "-default") ev.agent_type none st))).events)
      = st.events := by
  split_ifs <;>
    simp [idleSession_events, endSession_events, importEndSession_events,
      upsertSession_events, upsertAgent_events]

theorem insertEvent_none_iff (reg : Registry) (kb now : Nat) (ev : InsertEventInput)
    (st : DbState) :
    (insertEvent reg kb now ev st).1 = none ↔
      ∃ e, orNullStr ev.event_id = some e ∧ st.events.any (fun r => r.event_id = some e) = true := by
  cases ho : orNullStr ev.event_id with
  | none =>
    simp only [insertEvent, ho]
    simp
  | some e =>
    simp only [insertEvent, ho]
    rw [insertEvent_stage_events reg kb now ev st]
    by_cases hd : st.events.any (fun r => r.event_id = some e) = true
    · simp [hd]
      simpa using hd
    · simp [hd]
      simpa using hd

theorem insertEvent_inserted_events (reg : Registry) (kb now : Nat) (ev : InsertEventInput)
    (st : DbState) (row : EventRow) (h : (insertEvent reg kb now ev st).1 = some row) :
    ((insertEvent reg kb now ev st).2).events = st.events ++ [row] ∧
    row.event_id = orNullStr ev.event_id := by
  cases ho : orNullStr ev.event_id with
  | none =>
    simp only [insertEvent, ho] at h ⊢
    injection h with h2
    subst h2
    refine ⟨?_, rfl⟩
    simp only [insertEvent_stage_events reg kb now ev st]
  | some e =>
    simp only [insertEvent, ho] at h ⊢
    rw [insertEvent_stage_events reg kb now ev st] at h ⊢
    by_cases hd : st.events.any (fun r => r.event_id = some e) = true
    · rw [if_pos hd] at h
      exact absurd h (by simp)
    · rw [if_neg hd] at h ⊢
      injection h with h2
      subst h2
      exact ⟨rfl, rfl⟩

theorem insertEvent_no_id_some (reg : Registry) (kb now : Nat) (ev : InsertEventInput)
    (st : DbState) (ho : orNullStr ev.event_id = none) :
    ∃ row, (insertEvent reg kb now ev st).1 = some row := by
  simp only [insertEvent, ho]
  exact ⟨_, rfl⟩

theorem insertEvent_dup_events (reg : Registry) (kb now : Nat) (ev : InsertEventInput)
    (st : DbState) (h : (insertEvent reg kb now ev st).1 = none) :
    ((insertEvent reg kb now ev st).2).events = st.events := by
  cases ho : orNullStr ev.event_id with
  | none =>
    simp only [insertEvent, ho] at h
    exact absurd h (by simp)
  | some e =>
    simp only [insertEvent, ho] at h ⊢
    rw [insertEvent_stage_events reg kb now ev st] at h ⊢
    by_cases hd : st.events.any (fun r => r.event_id = some e) = true
    · rw [if_pos hd]
      exact insertEvent_stage_events reg kb now ev st
    · rw [if_neg hd] at h
      exact absurd h (by simp)

/-- C10. The write path reports the duplicate outcome (`null`) exactly
when the submitted event carries a (non-empty) `event_id` that already
exists among the stored rows — SQLite's `UNIQUE` admits any number of
NULLs, so rows without an id never collide; an event without an
`event_id` always appends one new row, and submitting such an event
twice appends two rows. -/
theorem insertEvent_dedup_spec (reg : Registry) (kb now : Nat) (ev : InsertEventInput)
    (st : DbState) :
    ((insertEvent reg kb now ev st).1 = none ↔
      ∃ e, orNullStr ev.event_id = some e ∧
        st.events.any (fun r => r.event_id = some e) = true) ∧
    (∀ row, (insertEvent reg kb now ev st).1 = some row →
      ((insertEvent reg kb now ev st).2).events = st.events ++ [row] ∧
      row.event_id = orNullStr ev.event_id) ∧
    (orNullStr ev.event_id = none →
      (((insertEvent reg kb now ev ((insertEvent reg kb now ev st).2)).2).events).length
        = st.events.length + 2) := by
  refine ⟨insertEvent_none_iff reg kb now ev st,
    insertEvent_inserted_events reg kb now ev st, ?_⟩
  intro ho
  obtain ⟨row1, h1⟩ := insertEvent_no_id_some reg kb now ev st ho
  obtain ⟨he1, _⟩ := insertEvent_inserted_events reg kb now ev st row1 h1
  obtain ⟨row2, h2⟩ := insertEvent_no_id_some reg kb now ev
    ((insertEvent reg kb now ev st).2) ho
  obtain ⟨he2, _⟩ := insertEvent_inserted_events reg kb now ev
    ((insertEvent reg kb now ev st).2) row2 h2
  rw [he2, he1]
  simp

/-- Witness for C10: inserting an event whose `event_id` `"e1"` is
already stored yields the duplicate result, and inserting an id-less
event twice into the empty store leaves two rows. -/
theorem insertEvent_dedup_spec_witness :
    (insertEvent (loadAll []) 1 3 (demoEvent "s1" "codex" "tool_use" none (some "e1"))
      { agents := [], sessions := [], events := [demoRow], nextEventId := 2 }).1 = none ∧
    (((insertEvent (loadAll []) 1 3 (demoEvent "s1" "codex" "tool_use" none none)
      ((insertEvent (loadAll []) 1 3 (demoEvent "s1" "codex" "tool_use" none none)
        emptyState).2)).2).events).length = (emptyState.events).length + 2 := by
  constructor
  · exact (insertEvent_dedup_spec (loadAll []) 1 3
      (demoEvent "s1" "codex" "tool_use" none (some "e1"))
      { agents := [], sessions := [], events := [demoRow], nextEventId := 2 }).1.mpr
      ⟨"e1", rfl, by decide⟩
  · exact (insertEvent_dedup_spec (loadAll []) 1 3
      (demoEvent "s1" "codex" "tool_use" none none) emptyState).2.2 rfl

theorem orNullStr_some_of_ne (eid : String) (hne : eid ≠ "") :
    orNullStr (some eid) = some eid := by
  unfold orNullStr
  split
  · next heq => exact absurd (by injection heq) hne
  · rfl

/-- C1. For every valid canonical event carrying a client-supplied
`event_id`, submitting the same body a second time through
`POST /api/events` returns the duplicate outcome (HTTP 200 with
`duplicates: 1`, not an error), leaves the stored event rows unchanged,
and hands nothing to the broadcaster. -/
theorem duplicate_submission_spec (reg : Registry) (kb : Nat)
    (pd : String → Option String) (now1 now2 : Nat) (body : JsValue) (st : DbState)
    (ev : NormalizedIngestEvent) (eid : String)
    (hn : normalizeIngestEvent pd body = .ok ev)
    (hid : ev.event_id = some eid) (hne : eid ≠ "") :
    (postEvent reg kb pd now2 body (postEvent reg kb pd now1 body st).state).outcome
      = .duplicate ∧
    (postEvent reg kb pd now2 body (postEvent reg kb pd now1 body st).state).state.events
      = (postEvent reg kb pd now1 body st).state.events ∧
    (postEvent reg kb pd now2 body (postEvent reg kb pd now1 body st).state).broadcasts = [] := by
  have hoid : orNullStr (toInsertInput ev).event_id = some eid := by
    simp only [toInsertInput, hid]
    exact orNullStr_some_of_ne eid hne
  rcases hi1 : insertEvent reg kb now1 (toInsertInput ev) st with ⟨ro1, st1⟩
  have hr1 : ((postEvent reg kb pd now1 body st).state).events.any
      (fun r => r.event_id = some eid) = true := by
    cases ro1 with
    | none =>
      have hdup := (insertEvent_none_iff reg kb now1 (toInsertInput ev) st).mp (by rw [hi1])
      obtain ⟨e, hoe, hany⟩ := hdup
      rw [hoid] at hoe
      injection hoe with hoe
      subst hoe
      have hde : st1.events = st.events := by
        have := insertEvent_dup_events reg kb now1 (toInsertInput ev) st (by rw [hi1])
        rw [hi1] at this
        exact this
      simp only [postEvent, hn, hi1, hde]
      exact hany
    | some row =>
      have hins := insertEvent_inserted_events reg kb now1 (toInsertInput ev) st row (by rw [hi1])
      rw [hi1] at hins
      have h1e : st1.events = st.events ++ [row] := hins.1
      have h1id : row.event_id = some eid := hins.2.trans hoid
      simp only [postEvent, hn, hi1, h1e]
      rw [List.any_append]
      simp [List.any_cons, h1id]
  set R1 := (postEvent reg kb pd now1 body st).state with hR1
  rcases hi2 : insertEvent reg kb now2 (toInsertInput ev) R1 with ⟨ro2, st2⟩
  have hnone : ro2 = none := by
    have := (insertEvent_none_iff reg kb now2 (toInsertInput ev) R1).mpr ⟨eid, hoid, hr1⟩
    rw [hi2] at this
    exact this
  subst hnone
  have hde2 : st2.events = R1.events := by
    have := insertEvent_dup_events reg kb now2 (toInsertInput ev) R1 (by rw [hi2])
    rw [hi2] at this
    exact this
  refine ⟨?_, ?_, ?_⟩
  · simp [postEvent, hn, hi2]
  · simp only [postEvent, hn, hi2]
    exact hde2
  · simp [postEvent, hn, hi2]


/-- Witness for C1: submitting `demoBody` twice into the empty store —
the second submission is a duplicate, changes no rows, and broadcasts
nothing. -/
theorem duplicate_submission_spec_witness :
    (postEvent (loadAll []) 1 (fun _ => none) 6 demoBody
      (postEvent (loadAll []) 1 (fun _ => none) 5 demoBody emptyState).state).outcome
      = .duplicate ∧
    (postEvent (loadAll []) 1 (fun _ => none) 6 demoBody
      (postEvent (loadAll []) 1 (fun _ => none) 5 demoBody emptyState).state).state.events
      = (postEvent (loadAll []) 1 (fun _ => none) 5 demoBody emptyState).state.events ∧
    (postEvent (loadAll []) 1 (fun _ => none) 6 demoBody
      (postEvent (loadAll []) 1 (fun _ => none) 5 demoBody emptyState).state).broadcasts = [] :=
  duplicate_submission_spec (loadAll []) 1 (fun _ => none) 5 6 demoBody emptyState
    demoNormalized "e1" (by rfl) rfl (by decide)


theorem find?_map_of_id (f : Session → Session) (hf : ∀ s, (f s).id = s.id) :
    ∀ (l : List Session) (id : String),
      (l.map f).find? (fun s => s.id = id) = (l.find? (fun s => s.id = id)).map f := by
  intro l id
  induction l with
  | nil => rfl
  | cons p rest ih =>
    by_cases hp : p.id = id
    · rw [List.map_cons, List.find?_cons_of_pos _ (by simp [hf, hp]),
        List.find?_cons_of_pos _ (by simp [hp])]
      rfl
    · rw [List.map_cons, List.find?_cons_of_neg _ (by simp [hf, hp]),
        List.find?_cons_of_neg _ (by simp [hp])]
      exact ih

theorem findSession_mapOp (f : Session → Session) (hf : ∀ s, (f s).id = s.id)
    (st : DbState) (id : String) :
    findSession { st with sessions := st.sessions.map f } id = (findSession st id).map f := by
  unfold findSession
  exact find?_map_of_id f hf st.sessions id

theorem findSession_idleSession (sid : String) (st : DbState) (id : String) :
    findSession (idleSession sid st) id = (findSession st id).map
      (fun s => if s.id = sid ∧ s.status ≠ SessionStatus.ended then
        { s with status := SessionStatus.idle } else s) :=
  findSession_mapOp _ (fun s => by split_ifs <;> rfl) st id

theorem findSession_endSession (now : Nat) (sid : String) (st : DbState) (id : String) :
    findSession (endSession now sid st) id = (findSession st id).map
      (fun s => if s.id = sid then
        { s with status := SessionStatus.ended, ended_at := some now } else s) :=
  findSession_mapOp _ (fun s => by split_ifs <;> rfl) st id

theorem findSession_importEndSession (now : Nat) (sid : String) (st : DbState) (id : String) :
    findSession (importEndSession now sid st) id = (findSession st id).map
      (fun s => if s.id = sid ∧ s.status ≠ SessionStatus.ended then
        { s with status := SessionStatus.ended, ended_at := some (s.ended_at.getD now) }
      else s) :=
  findSession_mapOp _ (fun s => by split_ifs <;> rfl) st id

theorem findSession_upsertAgent (now : Nat) (aid atype : String) (name : Option String)
    (st : DbState) (id : String) :
    findSession (upsertAgent now aid atype name st) id = findSession st id := by
  unfold findSession
  rw [upsertAgent_sessions]

theorem findSession_upsertSession (now : Nat) (uid aid atype : String)
    (proj br : Option String) (st : DbState) (id : String) :
    findSession (upsertSession now uid aid atype proj br st) id =
      if st.sessions.any (fun s => s.id = uid) then
        (findSession st id).map (fun s =>
          if s.id = uid then
            { s with
              last_event_at := now
              status := if s.status = SessionStatus.ended then s.status
                else SessionStatus.active
              project := match orNullStr proj with | some v => some v | none => s.project
              branch := match orNullStr br with | some v => some v | none => s.branch }
          else s)
      else
        (findSession st id).or
          (if uid = id then
            some { id := uid, agent_id := aid, agent_type := atype,
                   project := orNullStr proj, branch := orNullStr br,
                   status := SessionStatus.active, started_at := now, ended_at := none,
                   last_event_at := now }
           else none) := by
  unfold upsertSession
  split_ifs with h h2
  · exact findSession_mapOp _ (fun s => by split_ifs <;> rfl) st id
  · unfold findSession
    rw [List.find?_append]
    congr 1
    rw [List.find?_cons_of_pos _ (by simp [h2])]
  · unfold findSession
    rw [List.find?_append]
    congr 1
    rw [List.find?_cons_of_neg _ (by simp [h2])]
    rfl

theorem insertEvent_stage_sessions (reg : Registry) (kb now : Nat) (ev : InsertEventInput)
    (st : DbState) :
    ((insertEvent reg kb now ev st).2).sessions =
      ((if ev.source = some "import" then
          importEndSession now ev.session_id
            (if ev.event_type = "session_end" then
              (if ev.agent_type = "claude_code" then
                idleSession ev.session_id
                  (upsertSession now ev.session_id (ev.agent_type ++ "-default") ev.agent_type
                    ev.project ev.branch
                    (upsertAgent now (ev.agent_type ++ "-default") ev.agent_type none st))
               else
                endSession now ev.session_id
                  (upsertSession now ev.session_id (ev.agent_type ++ "-default") ev.agent_type
                    ev.project ev.branch
                    (upsertAgent now (ev.agent_type ++ "-default") ev.agent_type none st)))
             else
              upsertSession now ev.session_id (ev.agent_type ++ "-default") ev.agent_type
                ev.project ev.branch
                (upsertAgent now (ev.agent_type ++ "-default") ev.agent_type none st))
        else
          (if ev.event_type = "session_end" then
            (if ev.agent_type = "claude_code" then
              idleSession ev.session_id
                (upsertSession now ev.session_id (ev.agent_type ++ "-default") ev.agent_type
                  ev.project ev.branch
                  (upsertAgent now (ev.agent_type ++ "-default") ev.agent_type none st))
             else
              endSession now ev.session_id
                (upsertSession now ev.session_id (ev.agent_type ++ "-default") ev.agent_type
                  ev.project ev.branch
                  (upsertAgent now (ev.agent_type ++ "-default") ev.agent_type none st)))
           else
            upsertSession now ev.session_id (ev.agent_type ++ "-default") ev.agent_type
              ev.project ev.branch
              (upsertAgent now (ev.agent_type ++ "-default") ev.agent_type none st)))).sessions := by
  cases ho : orNullStr ev.event_id with
  | none => simp only [insertEvent, ho]
  | some e =>
    simp only [insertEvent, ho]
    split_ifs <;> rfl

theorem findSession_insertEvent (reg : Registry) (kb now : Nat) (ev : InsertEventInput)
    (st : DbState) (id : String) :
    findSession ((insertEvent reg kb now ev st).2) id =
      findSession
        (if ev.source = some "import" then
          importEndSession now ev.session_id
            (if ev.event_type = "session_end" then
              (if ev.agent_type = "claude_code" then
                idleSession ev.session_id
                  (upsertSession now ev.session_id (ev.agent_type ++ "-default") ev.agent_type
                    ev.project ev.branch
                    (upsertAgent now (ev.agent_type ++ "-default") ev.agent_type none st))
               else
                endSession now ev.session_id
                  (upsertSession now ev.session_id (ev.agent_type ++ "-default") ev.agent_type
                    ev.project ev.branch
                    (upsertAgent now (ev.agent_type ++ "-default") ev.agent_type none st)))
             else
              upsertSession now ev.session_id (ev.agent_type ++ "-default") ev.agent_type
                ev.project ev.branch
                (upsertAgent now (ev.agent_type ++ "-default") ev.agent_type none st))
        else
          (if ev.event_type = "session_end" then
            (if ev.agent_type = "claude_code" then
              idleSession ev.session_id
                (upsertSession now ev.session_id (ev.agent_type ++ "-default") ev.agent_type
                  ev.project ev.branch
                  (upsertAgent now (ev.agent_type ++ "-default") ev.agent_type none st))
             else
              endSession now ev.session_id
                (upsertSession now ev.session_id (ev.agent_type ++ "-default") ev.agent_type
                  ev.project ev.branch
                  (upsertAgent now (ev.agent_type ++ "-default") ev.agent_type none st)))
           else
            upsertSession now ev.session_id (ev.agent_type ++ "-default") ev.agent_type
              ev.project ev.branch
              (upsertAgent now (ev.agent_type ++ "-default") ev.agent_type none st))) id := by
  unfold findSession
  rw [insertEvent_stage_sessions]

theorem findSession_id (st : DbState) (id : String) (s : Session)
    (h : findSession st id = some s) : s.id = id := by
  unfold findSession at h
  have h2 := List.find?_some h
  simp only [decide_eq_true_eq] at h2
  exact h2

theorem upsertSession_found (now : Nat) (uid aid atype : String) (proj br : Option String)
    (st : DbState) (id : String) (sess : Session) (h : findSession st id = some sess) :
    ∃ s2, findSession (upsertSession now uid aid atype proj br st) id = some s2 ∧
      s2.status = (if sess.id = uid then
        (if sess.status = SessionStatus.ended then sess.status else SessionStatus.active)
        else sess.status) ∧
      s2.ended_at = sess.ended_at ∧
      s2.id = sess.id ∧
      (sess.id = uid → s2.last_event_at = now) := by
  rw [findSession_upsertSession]
  by_cases hany : (st.sessions.any fun s => s.id = uid) = true
  · rw [if_pos hany, h]
    by_cases hid : sess.id = uid
    · refine ⟨_, rfl, ?_, ?_, ?_, fun _ => ?_⟩ <;> simp [hid]
    · refine ⟨_, rfl, ?_, ?_, ?_, fun hc => absurd hc hid⟩ <;> simp [hid]
  · rw [if_neg hany, h]
    have hnid : ¬ sess.id = uid := by
      intro hc
      apply hany
      have hm := List.mem_of_find?_eq_some h
      rw [List.any_eq_true]
      exact ⟨sess, hm, by simp [hc]⟩
    exact ⟨sess, rfl, by rw [if_neg hnid], rfl, rfl, fun hc => absurd hc hnid⟩


theorem insertEvent_ended_frame (reg : Registry) (kb now : Nat) (ev : InsertEventInput)
    (st : DbState) (id : String) (sess : Session)
    (h : findSession st id = some sess) (he : sess.status = SessionStatus.ended) :
    ∃ sess2, findSession ((insertEvent reg kb now ev st).2) id = some sess2 ∧
      sess2.status = SessionStatus.ended ∧
      ((ev.event_type = "session_end" ∧ ev.agent_type ≠ "claude_code" ∧ id = ev.session_id) →
        sess2.ended_at = some now) ∧
      (¬(ev.event_type = "session_end" ∧ ev.agent_type ≠ "claude_code" ∧ id = ev.session_id) →
        sess2.ended_at = sess.ended_at) := by
  have h1 : findSession (upsertAgent now (ev.agent_type ++ "-default") ev.agent_type none st) id
      = some sess := by
    rw [findSession_upsertAgent]
    exact h
  obtain ⟨s2, hs2, hstat2, hend2, hid2, _⟩ :=
    upsertSession_found now ev.session_id (ev.agent_type ++ "-default") ev.agent_type
      ev.project ev.branch _ id sess h1
  have hst2 : s2.status = SessionStatus.ended := by
    rw [hstat2]
    split_ifs <;> simp_all
  have hsid2 : s2.id = id := hid2.trans (findSession_id st id sess h)
  rw [findSession_insertEvent]
  by_cases het : ev.event_type = "session_end"
  · by_cases hag : ev.agent_type = "claude_code"
    · by_cases hsrc : ev.source = some "import"
      · rw [if_pos hsrc, if_pos het, if_pos hag, findSession_importEndSession,
          findSession_idleSession, hs2]
        refine ⟨_, rfl, ?_, fun hc => absurd hag hc.2.1, fun _ => ?_⟩ <;>
          simp [hst2, hend2]
      · rw [if_neg hsrc, if_pos het, if_pos hag, findSession_idleSession, hs2]
        refine ⟨_, rfl, ?_, fun hc => absurd hag hc.2.1, fun _ => ?_⟩ <;>
          simp [hst2, hend2]
    · by_cases hidt : id = ev.session_id
      · by_cases hsrc : ev.source = some "import"
        · rw [if_pos hsrc, if_pos het, if_neg hag, findSession_importEndSession,
            findSession_endSession, hs2]
          refine ⟨_, rfl, ?_, fun _ => ?_, fun hnc => absurd ⟨het, hag, hidt⟩ hnc⟩ <;>
            simp [hsid2, hidt]
        · rw [if_neg hsrc, if_pos het, if_neg hag, findSession_endSession, hs2]
          refine ⟨_, rfl, ?_, fun _ => ?_, fun hnc => absurd ⟨het, hag, hidt⟩ hnc⟩ <;>
            simp [hsid2, hidt]
      · by_cases hsrc : ev.source = some "import"
        · rw [if_pos hsrc, if_pos het, if_neg hag, findSession_importEndSession,
            findSession_endSession, hs2]
          refine ⟨_, rfl, ?_, fun hc => absurd hc.2.2 hidt, fun _ => ?_⟩ <;>
            simp [hst2, hend2, hsid2, hidt]
        · rw [if_neg hsrc, if_pos het, if_neg hag, findSession_endSession, hs2]
          refine ⟨_, rfl, ?_, fun hc => absurd hc.2.2 hidt, fun _ => ?_⟩ <;>
            simp [hst2, hend2, hsid2, hidt]
  · by_cases hsrc : ev.source = some "import"
    · rw [if_pos hsrc, if_neg het, findSession_importEndSession, hs2]
      refine ⟨_, rfl, ?_, fun hc => absurd hc.1 het, fun _ => ?_⟩ <;>
        simp [hst2, hend2]
    · rw [if_neg hsrc, if_neg het, hs2]
      exact ⟨s2, rfl, hst2, fun hc => absurd hc.1 het, fun _ => hend2⟩


theorem upsertSession_target_exists (now : Nat) (uid aid atype : String)
    (proj br : Option String) (st : DbState) :
    ∃ s1, findSession (upsertSession now uid aid atype proj br st) uid = some s1 ∧
      s1.last_event_at = now := by
  cases hfs : findSession st uid with
  | some sess =>
    obtain ⟨s1, hs1, _, _, _, hlast⟩ :=
      upsertSession_found now uid aid atype proj br st uid sess hfs
    exact ⟨s1, hs1, hlast (findSession_id _ _ _ hfs)⟩
  | none =>
    rw [findSession_upsertSession]
    have hna : ¬ (st.sessions.any fun s => s.id = uid) = true := by
      intro hc
      rw [List.any_eq_true] at hc
      obtain ⟨x, hx, hpx⟩ := hc
      have hsome : (findSession st uid).isSome := by
        unfold findSession
        rw [List.find?_isSome]
        exact ⟨x, hx, hpx⟩
      rw [hfs] at hsome
      simp at hsome
    rw [if_neg hna, hfs, if_pos rfl]
    exact ⟨_, rfl, rfl⟩

/-- C2. Once a session's status is `ended` it is terminal: the session
upsert performed by every event submission, the explicit idle
transition, the `session_end` lifecycle handling and the import-path
marking all leave the status `ended` — no subsequent event submission
and no `idleSession` call brings it back to `active` or `idle`. -/
theorem ended_terminal_spec (reg : Registry) (kb now : Nat) (ev : InsertEventInput)
    (st : DbState) (id : String) (sess : Session)
    (h : findSession st id = some sess) (he : sess.status = SessionStatus.ended) :
    (∃ sess2, findSession ((insertEvent reg kb now ev st).2) id = some sess2 ∧
      sess2.status = SessionStatus.ended) ∧
    (∀ sid, ∃ sess3, findSession (idleSession sid st) id = some sess3 ∧
      sess3.status = SessionStatus.ended) := by
  constructor
  · obtain ⟨sess2, h2, hs, _, _⟩ := insertEvent_ended_frame reg kb now ev st id sess h he
    exact ⟨sess2, h2, hs⟩
  · intro sid
    rw [findSession_idleSession, h]
    refine ⟨_, rfl, ?_⟩
    simp [he]

/-- Witness for C2: an already-ended session survives a codex import
`session_end` submission and an explicit idle call with status `ended`. -/
theorem ended_terminal_spec_witness :
    (∃ sess2, findSession ((insertEvent (loadAll []) 1 9
        (demoEvent "s1" "codex" "session_end" (some "import") none) (endedState 2)).2) "s1"
      = some sess2 ∧ sess2.status = SessionStatus.ended) ∧
    (∃ sess3, findSession (idleSession "s1" (endedState 2)) "s1" = some sess3 ∧
      sess3.status = SessionStatus.ended) := by
  have h := ended_terminal_spec (loadAll []) 1 9
    (demoEvent "s1" "codex" "session_end" (some "import") none) (endedState 2) "s1"
    (endedSession 2) (by rfl) rfl
  exact ⟨h.1, h.2 "s1"⟩

/-- Counterexample to C8 as stated: the session upsert sets
`last_event_at = datetime('now')` unconditionally, so an event for an
already-`ended` session *changes* `last_event_at` (here from 5 to 7)
rather than leaving it unchanged. -/
theorem last_event_at_counterexample :
    (findSession (endedState 2) "s1").map Session.status = some SessionStatus.ended ∧
    (findSession (endedState 2) "s1").map Session.last_event_at = some 5 ∧
    (findSession ((insertEvent (loadAll []) 1 7 (demoEvent "s1" "codex" "tool_use" none none)
      (endedState 2)).2) "s1").map Session.last_event_at = some 7 := by
  refine ⟨rfl, rfl, by decide⟩

/-- C8 (amended). `last_event_at` is bumped to the current server time
by every event attributed to the session — including when the session is
already `ended`; the terminal session's audit trail keeps advancing. -/
theorem last_event_at_amended (reg : Registry) (kb now : Nat) (ev : InsertEventInput)
    (st : DbState) :
    ∃ sess2, findSession ((insertEvent reg kb now ev st).2) ev.session_id = some sess2 ∧
      sess2.last_event_at = now := by
  obtain ⟨s1, hs1, hlast⟩ := upsertSession_target_exists now ev.session_id
    (ev.agent_type ++ "-default") ev.agent_type ev.project ev.branch
    (upsertAgent now (ev.agent_type ++ "-default") ev.agent_type none st)
  rw [findSession_insertEvent]
  by_cases het : ev.event_type = "session_end"
  · by_cases hag : ev.agent_type = "claude_code"
    · by_cases hsrc : ev.source = some "import"
      · rw [if_pos hsrc, if_pos het, if_pos hag, findSession_importEndSession,
          findSession_idleSession, hs1]
        refine ⟨_, rfl, ?_⟩
        simp only []
        split_ifs <;> simp [hlast]
      · rw [if_neg hsrc, if_pos het, if_pos hag, findSession_idleSession, hs1]
        refine ⟨_, rfl, ?_⟩
        simp only []
        split_ifs <;> simp [hlast]
    · by_cases hsrc : ev.source = some "import"
      · rw [if_pos hsrc, if_pos het, if_neg hag, findSession_importEndSession,
          findSession_endSession, hs1]
        refine ⟨_, rfl, ?_⟩
        simp only []
        split_ifs <;> simp [hlast]
      · rw [if_neg hsrc, if_pos het, if_neg hag, findSession_endSession, hs1]
        refine ⟨_, rfl, ?_⟩
        simp only []
        split_ifs <;> simp [hlast]
  · by_cases hsrc : ev.source = some "import"
    · rw [if_pos hsrc, if_neg het, findSession_importEndSession, hs1]
      refine ⟨_, rfl, ?_⟩
      simp only []
      split_ifs <;> simp [hlast]
    · rw [if_neg hsrc, if_neg het, hs1]
      exact ⟨s1, rfl, hlast⟩

/-- Counterexample to C9 as stated: `endSession` carries no status
guard, so a second `session_end` for an already-ended codex session
overwrites `ended_at` (here from 2 to 9) instead of leaving it set
once. -/
theorem ended_at_counterexample :
    (findSession (endedState 2) "s1").map Session.ended_at = some (some 2) ∧
    (findSession ((insertEvent (loadAll []) 1 9
      (demoEvent "s1" "codex" "session_end" none none) (endedState 2)).2) "s1").map
        Session.ended_at = some (some 9) := by
  exact ⟨rfl, by decide⟩

/-- C9 (amended). For an already-ended session, every event submission
leaves `ended_at` unchanged — except a `session_end` event from a
non-lingering agent (any agent type other than `claude_code`), which
overwrites `ended_at` with the current server time on every submission,
even when the session is already ended. -/
theorem ended_at_amended (reg : Registry) (kb now : Nat) (ev : InsertEventInput)
    (st : DbState) :
    (∀ id sess, findSession st id = some sess → sess.status = SessionStatus.ended →
      ¬(ev.event_type = "session_end" ∧ ev.agent_type ≠ "claude_code" ∧ id = ev.session_id) →
      ∃ sess2, findSession ((insertEvent reg kb now ev st).2) id = some sess2 ∧
        sess2.ended_at = sess.ended_at) ∧
    (ev.event_type = "session_end" → ev.agent_type ≠ "claude_code" →
      ∃ sess2, findSession ((insertEvent reg kb now ev st).2) ev.session_id = some sess2 ∧
        sess2.status = SessionStatus.ended ∧ sess2.ended_at = some now) := by
  constructor
  · intro id sess h he hnc
    obtain ⟨sess2, h2, _, _, hend⟩ := insertEvent_ended_frame reg kb now ev st id sess h he
    exact ⟨sess2, h2, hend hnc⟩
  · intro het hag
    obtain ⟨s1, hs1, _⟩ := upsertSession_target_exists now ev.session_id
      (ev.agent_type ++ "-default") ev.agent_type ev.project ev.branch
      (upsertAgent now (ev.agent_type ++ "-default") ev.agent_type none st)
    have hs1id : s1.id = ev.session_id := findSession_id _ _ _ hs1
    rw [findSession_insertEvent]
    by_cases hsrc : ev.source = some "import"
    · rw [if_pos hsrc, if_pos het, if_neg hag, findSession_importEndSession,
        findSession_endSession, hs1]
      refine ⟨_, rfl, ?_, ?_⟩ <;> simp [hs1id]
    · rw [if_neg hsrc, if_pos het, if_neg hag, findSession_endSession, hs1]
      refine ⟨_, rfl, ?_, ?_⟩ <;> simp [hs1id]

/-- Witness for C9 (amended): a claude_code `session_end` for the
already-ended session keeps `ended_at = 2`, while a codex `session_end`
stamps `ended_at = 9`. -/
theorem ended_at_amended_witness :
    (∃ sess2, findSession ((insertEvent (loadAll []) 1 9
        (demoEvent "s1" "claude_code" "session_end" none none) (endedState 2)).2) "s1"
      = some sess2 ∧ sess2.ended_at = (endedSession 2).ended_at) ∧
    (∃ sess2, findSession ((insertEvent (loadAll []) 1 9
        (demoEvent "s1" "codex" "session_end" none none) (endedState 2)).2) "s1"
      = some sess2 ∧ sess2.status = SessionStatus.ended ∧ sess2.ended_at = some 9) := by
  constructor
  · exact (ended_at_amended (loadAll []) 1 9
      (demoEvent "s1" "claude_code" "session_end" none none) (endedState 2)).1 "s1"
      (endedSession 2) (by rfl) rfl (by decide)
  · exact (ended_at_amended (loadAll []) 1 9
      (demoEvent "s1" "codex" "session_end" none none) (endedState 2)).2 rfl (by decide)

end AgentStats
